import Mathlib

/-!
Shallow embedding of `src/patatune/objective.py` (the objective evaluation
subsystem of patatune) together with proofs about the claims on its
specification.

Modelling conventions:
* Candidate entries and fitness values are modelled as `Int` (the Python code
  is generic over numeric values; only ring operations and negation occur).
* A candidate is a value of an abstract type `α`; a population is a `List α`.
* A numpy result returned by a vectorized objective function is modelled by
  `NpRes`: either a one-dimensional array (`flat`) or a two-dimensional array
  (`mat`, a rectangular list of rows).  `np.shape`'s rank test
  `len(np.shape(r)) > 1` is `true` exactly on `mat`.
* Python exceptions are modelled with `Except`.  A user-supplied objective
  function may raise an arbitrary exception, modelled by an abstract error
  type `ε`; the engine's own `ValueError`s, numpy shape/broadcast errors and
  `ZeroDivisionError` are the other constructors of `PyErr`.
* numpy broadcasting of `matrix * directions` is modelled by `npMul`,
  following the numpy rule for shapes `(a, L) * (D,)`: defined when `L = D`,
  or `D = 1`, or `L = 1`; otherwise the multiplication raises.
-/

/-- Exceptions that can escape `evaluate`: an uncaught user exception
(propagated unmodified as payload `e`), a `ValueError` raised by the engine
itself (the Python message's static text is kept; interpolated reprs are
elided), a numpy shape/broadcast error, or `ZeroDivisionError` (from `% 0`). -/
inductive PyErr (ε : Type) where
  | user (e : ε)
  | valueError (msg : String)
  | npError
  | zeroDivisionError
deriving DecidableEq

/-- A numpy array as returned by a vectorized objective function: either a
one-dimensional array of per-candidate values, or a two-dimensional array.
`mat` models a genuinely two-dimensional numpy array (rank 2), so
`len(np.shape(r)) > 1` holds exactly on `mat`. -/
inductive NpRes where
  | flat (v : List Int)
  | mat (m : List (List Int))
deriving DecidableEq

/-- The value an element-wise objective function returns for one candidate:
a scalar, or a vector of several objective values.  Across N candidates, all
scalars give a rank-1 `(N,)` result and all equal-length vectors give a
rank-2 `(N, k)` result, mirroring what `np.shape` sees on the collected
Python list. -/
inductive EWRes where
  | scalar (x : Int)
  | vec (v : List Int)
deriving DecidableEq

def EWRes.isScalar : EWRes → Bool
  | .scalar _ => true
  | .vec _ => false

def EWRes.scalarVal : EWRes → Int
  | .scalar x => x
  | .vec _ => 0

def EWRes.vecVal : EWRes → List Int
  | .scalar _ => []
  | .vec v => v

/-- The common row length of a rectangular list of rows (the second component
of the numpy shape).  `none` models the failure of `np.array` / broadcasting
on a ragged or empty stack of rows (empty stacks do not occur in the claims;
every objective set under consideration has at least one function). -/
def commonWidth : List (List Int) → Option Nat
  | [] => none
  | r :: rest => if rest.all (fun s => s.length = r.length) then some r.length else none

/-- The columns of a rectangular matrix `m` of width `k`: column `j` is
`m.map (·.getD j 0)`.  For a rectangular `m` this is exactly `np.array(m).T`. -/
def colsOf (m : List (List Int)) (k : Nat) : List (List Int) :=
  (List.range k).map (fun j => m.map (fun r => r.getD j 0))

/-- `np.array(rows).T` on a list of rows: defined when the rows are
rectangular, in which case it is the transpose. -/
def npTranspose (rows : List (List Int)) : Option (List (List Int)) :=
  match commonWidth rows with
  | none => none
  | some w => some (colsOf rows w)

/-- `np.array(rows) * dirs`: numpy broadcasting of a `(len rows, L)` matrix
with a `(len dirs,)` vector.  Requires rectangular rows of width `L`;
defined when `L = len dirs` (entrywise per row), when `len dirs = 1`
(scalar multiplication), or when `L = 1` (outer broadcast). -/
def npMul (rows : List (List Int)) (dirs : List Int) : Option (List (List Int)) :=
  match commonWidth rows with
  | none => none
  | some L =>
    if L = dirs.length then
      some (rows.map (fun r => List.zipWith (fun x d => x * d) r dirs))
    else if dirs.length = 1 then
      some (rows.map (fun r => r.map (fun x => x * dirs.getD 0 1)))
    else if L = 1 then
      some (rows.map (fun r => dirs.map (fun d => r.getD 0 0 * d)))
    else none

/-- `np.concatenate(outs)` on a list of per-batch results: all rank-1 inputs
concatenate to a rank-1 array, all rank-2 inputs concatenate along axis 0;
mixing ranks raises. -/
def npConcatenate (outs : List NpRes) : Option NpRes :=
  if outs.all (fun o => match o with | .flat _ => true | .mat _ => false) then
    some (.flat (outs.map (fun o => match o with | .flat v => v | .mat _ => [])).flatten)
  else if outs.all (fun o => match o with | .flat _ => false | .mat _ => true) then
    some (.mat (outs.map (fun o => match o with | .flat _ => [] | .mat m => m)).flatten)
  else none

/-- `np.array(outs)` on the list of per-candidate outputs of one element-wise
objective function: all scalars give a rank-1 array, all equal-length vectors
give a rank-2 array, anything else is ragged and raises. -/
def ewCollect (outs : List EWRes) : Option NpRes :=
  if outs.all EWRes.isScalar then
    some (.flat (outs.map EWRes.scalarVal))
  else if outs.all (fun o => o.isScalar = false) then
    match commonWidth (outs.map EWRes.vecVal) with
    | some _ => some (.mat (outs.map EWRes.vecVal))
    | none => none
  else none

/-- The state of a constructed `Objective` (any variant): the fields set by
`Objective.__init__` in `objective.py`.  `F` is the type of the stored
objective functions (it differs per variant).  `true_pareto` is opaque to
the core and modelled as an opaque optional token. -/
structure ObjectiveCfg (F : Type) where
  objective_functions : List F
  num_objectives : Nat
  directions : List Int
  objective_names : List String
  true_pareto : Option Unit
deriving DecidableEq

namespace Objective

/-- The direction-parsing loop of `Objective.__init__` (lines 22-27): each
token must be `"minimize"` (stored as `1`) or `"maximize"` (stored as `-1`);
any other token raises `ValueError`. -/
def parseDirections : List String → Except String (List Int)
  | [] => .ok []
  | d :: rest =>
    if ¬(d = "minimize" ∨ d = "maximize") then
      .error ("Direction must be either 'minimize' or 'maximize', got '" ++ d ++ "'.")
    else
      match parseDirections rest with
      | .error e => .error e
      | .ok ds => .ok ((if d = "minimize" then 1 else -1) :: ds)

/-- The synthesized default objective names `objective_<i>` (line 30). -/
def defaultNames (n : Nat) : List String :=
  (List.range n).map (fun i => "objective_" ++ toString i)

/-- The directions block of `Objective.__init__` (lines 16-27): default to
all `+1` when `directions` is omitted; otherwise first check the length
against `num_objectives`, then parse every token. -/
def dirsOf (n : Nat) (directions : Option (List String)) : Except String (List Int) :=
  match directions with
  | none => .ok (List.replicate n 1)
  | some ds =>
    if ds.length ≠ n then
      .error ("Number of directions (" ++ toString ds.length ++
        ") does not match number of objectives (" ++ toString n ++ ").")
    else parseDirections ds

/-- The names block of `Objective.__init__` (lines 29-35): default to the
synthesized names when `objective_names` is omitted; otherwise check the
length against `num_objectives`. -/
def namesOf (n : Nat) (objective_names : Option (List String)) : Except String (List String) :=
  match objective_names with
  | none => .ok (defaultNames n)
  | some ns =>
    if ns.length ≠ n then
      .error ("Number of objective names (" ++ toString ns.length ++
        ") does not match number of objectives (" ++ toString n ++ ").")
    else .ok ns

/-- `Objective.__init__` (lines 5-37): `num_objectives` defaults to the
number of functions (lines 11-14), then the directions block, then the names
block; the first `ValueError` raised aborts construction.  The Python
constructor wraps a non-list `objective_functions` argument into a singleton
list; the embedding takes the already normalized list of functions. -/
def init {F : Type} (objective_functions : List F) (num_objectives : Option Nat)
    (directions : Option (List String)) (objective_names : Option (List String))
    (true_pareto : Option Unit) : Except String (ObjectiveCfg F) :=
  let n : Nat := match num_objectives with
    | none => objective_functions.length
    | some k => k
  match dirsOf n directions with
  | .error e => .error e
  | .ok dirs =>
    match namesOf n objective_names with
    | .error e => .error e
    | .ok names => .ok ⟨objective_functions, n, dirs, names, true_pareto⟩

/-- The comprehension `[objective_function(items) for objective_function in
self.objective_functions]` (lines 40-41): functions are called left to
right; the first exception raised by a user function propagates unmodified. -/
def collectResults {α ε : Type} (fs : List (List α → Except ε NpRes)) (items : List α) :
    Except (PyErr ε) (List NpRes) :=
  match fs with
  | [] => .ok []
  | f :: rest =>
    match f items with
    | .error e => .error (.user e)
    | .ok r =>
      match collectResults rest items with
      | .error e => .error e
      | .ok rs => .ok (r :: rs)

/-- The solution-flattening loop of `Objective.evaluate` (lines 42-48): a
rank-1 result is appended as one entry; the rows of a rank-2 result are
appended one by one (`for sub_r in r`, which iterates over the first axis). -/
def flattenSolutions : List NpRes → List (List Int)
  | [] => []
  | .flat v :: rest => v :: flattenSolutions rest
  | .mat m :: rest => m ++ flattenSolutions rest

/-- `Objective.evaluate` (lines 39-49): call every function on the whole
population, flatten the results, and return
`np.array(solutions) * self.directions` (note: no transpose). -/
def evaluate {α ε : Type} (cfg : ObjectiveCfg (List α → Except ε NpRes)) (items : List α) :
    Except (PyErr ε) (List (List Int)) :=
  match collectResults cfg.objective_functions items with
  | .error e => .error e
  | .ok result =>
    match npMul (flattenSolutions result) cfg.directions with
    | none => .error .npError
    | some m => .ok m

end Objective

namespace ElementWiseObjective

/-- The inner comprehension `[obj_func(item) for item in items]` of
`ElementWiseObjective.evaluate` (line 57): one synchronous call per
candidate, in order; the first exception propagates. -/
def collectItems {α ε : Type} (f : α → Except ε EWRes) (items : List α) :
    Except ε (List EWRes) :=
  match items with
  | [] => .ok []
  | x :: rest =>
    match f x with
    | .error e => .error e
    | .ok r =>
      match collectItems f rest with
      | .error e => .error e
      | .ok rs => .ok (r :: rs)

/-- The outer comprehension of line 57-58: the per-item loop is run for each
objective function in declared order. -/
def collectAll {α ε : Type} (fs : List (α → Except ε EWRes)) (items : List α) :
    Except (PyErr ε) (List (List EWRes)) :=
  match fs with
  | [] => .ok []
  | f :: rest =>
    match collectItems f items with
    | .error e => .error (.user e)
    | .ok r =>
      match collectAll rest items with
      | .error e => .error e
      | .ok rs => .ok (r :: rs)

/-- The solution-building loop of `ElementWiseObjective.evaluate`
(lines 59-65): each per-function result is inspected with `np.shape`; a
rank-1 result is appended as one column, the rows of `np.array(r).T` (the
columns of a rank-2 result) are appended one by one. -/
def buildSolutions : List (List EWRes) → Option (List (List Int))
  | [] => some []
  | r :: rest =>
    match ewCollect r with
    | none => none
    | some (.flat v) =>
      match buildSolutions rest with
      | none => none
      | some s => some (v :: s)
    | some (.mat m) =>
      match npTranspose m with
      | none => none
      | some t =>
        match buildSolutions rest with
        | none => none
        | some s => some (t ++ s)

/-- `ElementWiseObjective.evaluate` (lines 56-67): collect per-item results,
build the per-objective columns, and return
`np.array(solutions).T * self.directions` (note the transpose). -/
def evaluate {α ε : Type} (cfg : ObjectiveCfg (α → Except ε EWRes)) (items : List α) :
    Except (PyErr ε) (List (List Int)) :=
  match collectAll cfg.objective_functions items with
  | .error e => .error e
  | .ok result =>
    match buildSolutions result with
    | none => .error .npError
    | some solutions =>
      match npTranspose solutions with
      | none => .error .npError
      | some t =>
        match npMul t cfg.directions with
        | none => .error .npError
        | some m => .ok m

end ElementWiseObjective

/-- An asynchronous batch objective function as stored by `BatchObjective`:
`isCoroutine` models `asyncio.iscoroutinefunction(f)`, and `run` maps one
batch of candidates to its result (or an uncaught user exception). -/
structure AsyncFn (α ε : Type) where
  isCoroutine : Bool
  run : List α → Except ε NpRes

/-- The state of a constructed `BatchObjective`: the base fields plus
`batch_size` (line 72; stored without any validation). -/
structure BatchObjectiveCfg (α ε : Type) extends ObjectiveCfg (AsyncFn α ε) where
  batch_size : Nat

namespace BatchObjective

/-- `BatchObjective.__init__` (lines 70-72): delegate to the base
constructor, then store `batch_size` unchecked. -/
def init {α ε : Type} (objective_functions : List (AsyncFn α ε)) (batch_size : Nat)
    (num_objectives : Option Nat) (directions : Option (List String))
    (objective_names : Option (List String)) (true_pareto : Option Unit) :
    Except String (BatchObjectiveCfg α ε) :=
  match Objective.init objective_functions num_objectives directions objective_names true_pareto with
  | .error e => .error e
  | .ok base => .ok ⟨base, batch_size⟩

/-- Python list slicing `l[i:j]` for `0 ≤ i ≤ j`. -/
def pySlice {α : Type} (l : List α) (i j : Nat) : List α :=
  (l.drop i).take (j - i)

/-- Python `range(start, stop, step)` for a positive step: the `k`-th element
is `start + k * step`, and there are `ceil((stop - start) / step)` elements. -/
def pyRange (start stop step : Nat) : List Nat :=
  (List.range ((stop - start + step - 1) / step)).map (fun k => start + k * step)

/-- The batch-partition step of `BatchObjective.evaluate` (lines 81-87):
when `batch_size` divides `len(items)` the slices cover the whole list;
otherwise the stepped slices cover the largest multiple of `batch_size` and
the remainder slice `items[len(items) - len(items) % batch_size:]` is
appended.  Requires `batch_size ≠ 0` (a zero batch size raises
`ZeroDivisionError` in `evaluate` before reaching this step). -/
def makeBatches {α : Type} (items : List α) (B : Nat) : List (List α) :=
  if items.length % B = 0 then
    (pyRange 0 items.length B).map (fun i => pySlice items i (i + B))
  else
    ((pyRange 0 (items.length - items.length % B) B).map (fun i => pySlice items i (i + B)))
      ++ [pySlice items (items.length - items.length % B) items.length]

/-- `asyncio.gather(*tasks)` over one function's batch tasks: under the
single-threaded cooperative model the joint wait fails with the first raised
exception and retains no partial results. -/
def gather {α ε : Type} (run : List α → Except ε NpRes) (batches : List (List α)) :
    Except ε (List NpRes) :=
  match batches with
  | [] => .ok []
  | b :: rest =>
    match run b with
    | .error e => .error e
    | .ok r =>
      match gather run rest with
      | .error e => .error e
      | .ok rs => .ok (r :: rs)

/-- `BatchObjective._async_evaluate` (lines 74-78): reject a synchronous
function before creating any task, then gather all batch tasks. -/
def async_evaluate {α ε : Type} (f : AsyncFn α ε) (batches : List (List α)) :
    Except (PyErr ε) (List NpRes) :=
  if f.isCoroutine = false then
    .error (.valueError "Objective function must be asynchronous for BatchObjective.")
  else
    match gather f.run batches with
    | .error e => .error (.user e)
    | .ok rs => .ok rs

/-- The per-function loop of `BatchObjective.evaluate` (lines 89-94): for
each function, first the synchronicity check of lines 91-92 (raising before
any of that function's tasks is dispatched), then
`asyncio.run(self._async_evaluate(...))`, then
`np.concatenate(tasks_output)`. -/
def runFns {α ε : Type} (fs : List (AsyncFn α ε)) (batches : List (List α)) :
    Except (PyErr ε) (List NpRes) :=
  match fs with
  | [] => .ok []
  | f :: rest =>
    if f.isCoroutine = false then
      .error (.valueError "All objective functions must be asynchronous for BatchObjective.")
    else
      match async_evaluate f batches with
      | .error e => .error e
      | .ok outs =>
        match npConcatenate outs with
        | none => .error .npError
        | some r =>
          match runFns rest batches with
          | .error e => .error e
          | .ok rs => .ok (r :: rs)

/-- `BatchObjective.evaluate` (lines 80-103): partition into batches (the
`%` on line 81 raises `ZeroDivisionError` when `batch_size` is zero), run
each function's batch group, then flatten and multiply exactly as the base
`Objective.evaluate` does (lines 96-103, again without transpose). -/
def evaluate {α ε : Type} (cfg : BatchObjectiveCfg α ε) (items : List α) :
    Except (PyErr ε) (List (List Int)) :=
  if cfg.batch_size = 0 then .error .zeroDivisionError
  else
    match runFns cfg.objective_functions (makeBatches items cfg.batch_size) with
    | .error e => .error e
    | .ok result =>
      match npMul (Objective.flattenSolutions result) cfg.directions with
      | none => .error .npError
      | some m => .ok m

end BatchObjective

/-- An asynchronous element-wise objective function as stored by
`AsyncElementWiseObjective`: `run` maps one candidate to its result. -/
structure AsyncItemFn (α ε : Type) where
  isCoroutine : Bool
  run : α → Except ε EWRes

namespace AsyncElementWiseObjective

/-- `asyncio.gather(*tasks)` over one function's per-candidate tasks. -/
def gatherItems {α ε : Type} (run : α → Except ε EWRes) (items : List α) :
    Except ε (List EWRes) :=
  match items with
  | [] => .ok []
  | x :: rest =>
    match run x with
    | .error e => .error e
    | .ok r =>
      match gatherItems run rest with
      | .error e => .error e
      | .ok rs => .ok (r :: rs)

/-- `AsyncElementWiseObjective._async_evaluate` (lines 106-110): reject a
synchronous function before creating any task, then gather one task per
candidate. -/
def async_evaluate {α ε : Type} (f : AsyncItemFn α ε) (items : List α) :
    Except (PyErr ε) (List EWRes) :=
  if f.isCoroutine = false then
    .error (.valueError "Objective function must be asynchronous.")
  else
    match gatherItems f.run items with
    | .error e => .error (.user e)
    | .ok rs => .ok rs

/-- The per-function loop of `AsyncElementWiseObjective.evaluate`
(lines 113-116): run each function's task group and append
`np.array(tasks_output)` (which raises on a ragged collection). -/
def runFns {α ε : Type} (fs : List (AsyncItemFn α ε)) (items : List α) :
    Except (PyErr ε) (List NpRes) :=
  match fs with
  | [] => .ok []
  | f :: rest =>
    match async_evaluate f items with
    | .error e => .error e
    | .ok outs =>
      match ewCollect outs with
      | none => .error .npError
      | some r =>
        match runFns rest items with
        | .error e => .error e
        | .ok rs => .ok (r :: rs)

/-- The solution-building loop of `AsyncElementWiseObjective.evaluate`
(lines 117-123), identical to the element-wise one but operating on the
already collected numpy arrays. -/
def buildSolutions : List NpRes → Option (List (List Int))
  | [] => some []
  | .flat v :: rest =>
    match buildSolutions rest with
    | none => none
    | some s => some (v :: s)
  | .mat m :: rest =>
    match npTranspose m with
    | none => none
    | some t =>
      match buildSolutions rest with
      | none => none
      | some s => some (t ++ s)

/-- `AsyncElementWiseObjective.evaluate` (lines 112-125): run all task
groups, build the per-objective columns, and return
`np.array(solutions).T * self.directions`. -/
def evaluate {α ε : Type} (cfg : ObjectiveCfg (AsyncItemFn α ε)) (items : List α) :
    Except (PyErr ε) (List (List Int)) :=
  match runFns cfg.objective_functions items with
  | .error e => .error e
  | .ok result =>
    match buildSolutions result with
    | none => .error .npError
    | some solutions =>
      match npTranspose solutions with
      | none => .error .npError
      | some t =>
        match npMul t cfg.directions with
        | none => .error .npError
        | some m => .ok m

end AsyncElementWiseObjective

/-! ## Sample user objective functions

Concrete user-supplied objective functions used to instantiate the theorems
below at specific inputs (candidates are single `Int`s, user exceptions are
`Nat` payloads). -/

/-- Vectorized function returning each candidate itself (one flat value per
candidate). -/
def okFlatId : List Int → Except Nat NpRes := fun its => .ok (.flat its)

/-- Vectorized function returning the fixed flat vector `[0, 5]`. -/
def okFlat05 : List Int → Except Nat NpRes := fun _ => .ok (.flat [0, 5])

/-- Vectorized function returning the fixed flat vector `[7, 0]`. -/
def okFlat70 : List Int → Except Nat NpRes := fun _ => .ok (.flat [7, 0])

/-- Vectorized two-column function: row `[p, p * p]` per candidate `p`. -/
def okMatPair : List Int → Except Nat NpRes :=
  fun its => .ok (.mat (its.map (fun p => [p, p * p])))

/-- Vectorized function that raises the user exception `7`. -/
def errVec : List Int → Except Nat NpRes := fun _ => .error 7

/-- Element-wise identity function. -/
def okScalarId : Int → Except Nat EWRes := fun x => .ok (.scalar x)

/-- Element-wise squaring function. -/
def okScalarSq : Int → Except Nat EWRes := fun x => .ok (.scalar (x * x))

/-- Element-wise two-column function returning `[x, x * x]`. -/
def okVecPair : Int → Except Nat EWRes := fun x => .ok (.vec [x, x * x])

/-- Element-wise function that raises the user exception `7`. -/
def errItem : Int → Except Nat EWRes := fun _ => .error 7

/-- Asynchronous batch function returning each candidate of the batch. -/
def asyncFlatId : AsyncFn Int Nat := ⟨true, fun b => .ok (.flat b)⟩

/-- Asynchronous batch two-column function: row `[p, p * p]` per candidate. -/
def asyncMatPair : AsyncFn Int Nat := ⟨true, fun b => .ok (.mat (b.map (fun p => [p, p * p])))⟩

/-- Asynchronous batch function that raises the user exception `7`. -/
def asyncErr : AsyncFn Int Nat := ⟨true, fun _ => .error 7⟩

/-- A synchronous (non-coroutine) batch function. -/
def syncFlat : AsyncFn Int Nat := ⟨false, fun b => .ok (.flat b)⟩

/-- Asynchronous per-item identity function. -/
def asyncItemId : AsyncItemFn Int Nat := ⟨true, fun x => .ok (.scalar x)⟩

/-- Asynchronous per-item squaring function. -/
def asyncItemSq : AsyncItemFn Int Nat := ⟨true, fun x => .ok (.scalar (x * x))⟩

/-- Asynchronous per-item function that raises the user exception `7`. -/
def asyncItemErr : AsyncItemFn Int Nat := ⟨true, fun _ => .error 7⟩

/-- A synchronous (non-coroutine) per-item function. -/
def syncItem : AsyncItemFn Int Nat := ⟨false, fun x => .ok (.scalar x)⟩

/-- A per-item objective function computing the scalar `g x` for each
candidate `x` (the element-wise calling convention of the spec). -/
def ewScalarFn {α ε : Type} (g : α → Int) : α → Except ε EWRes :=
  fun x => .ok (.scalar (g x))

/-- A per-item objective function computing the vector `g x` for each
candidate `x` (an element-wise multi-column function). -/
def ewVecFn {α ε : Type} (g : α → List Int) : α → Except ε EWRes :=
  fun x => .ok (.vec (g x))

/-- An asynchronous per-item objective function computing the scalar `g x`
for each candidate `x`. -/
def asyncScalarFn {α ε : Type} (g : α → Int) : AsyncItemFn α ε :=
  ⟨true, fun x => .ok (.scalar (g x))⟩

/-- An asynchronous batch objective function returning, for a batch, the
two-dimensional array with row `g x` for each candidate `x` of the batch. -/
def batchMatFn {α ε : Type} (g : α → List Int) : AsyncFn α ε :=
  ⟨true, fun b => .ok (.mat (b.map g))⟩

/-! ## Helper lemmas about the batch partition -/

namespace BatchObjective

lemma pySlice_chunk {α : Type} (l : List α) (i B : Nat) :
    pySlice l i (i + B) = (l.drop i).take B := by
  simp [pySlice]

lemma ceil_mul_div (q B : Nat) (hB : 0 < B) : (q * B + B - 1) / B = q := by
  have h1 : q * B + B - 1 = (B - 1) + q * B := by omega
  rw [h1, Nat.add_mul_div_right _ _ hB, Nat.div_eq_of_lt (by omega), Nat.zero_add]

lemma ceil_not_dvd (N B : Nat) (hB : 0 < B) (h : N % B ≠ 0) :
    (N + B - 1) / B = N / B + 1 := by
  have hm := Nat.div_add_mod N B
  have hr : N % B < B := Nat.mod_lt _ hB
  have hs : (N / B + 1) * B = N / B * B + B := by rw [Nat.add_mul, Nat.one_mul]
  have hmm : B * (N / B) = N / B * B := Nat.mul_comm _ _
  have h1 : N + B - 1 = (N % B - 1) + (N / B + 1) * B := by rw [hs]; omega
  rw [h1, Nat.add_mul_div_right _ _ hB, Nat.div_eq_of_lt (by omega), Nat.zero_add]

lemma pyRange_exact (q B : Nat) (hB : 0 < B) :
    pyRange 0 (q * B) B = (List.range q).map (fun t => t * B) := by
  unfold pyRange
  rw [Nat.sub_zero, ceil_mul_div q B hB]
  simp

lemma join_chunks {α : Type} (B : Nat) :
    ∀ (q : Nat) (l : List α), q * B ≤ l.length →
      ((List.range q).map (fun t => (l.drop (t * B)).take B)).flatten = l.take (q * B) := by
  intro q
  induction q with
  | zero => intro l _; simp
  | succ n ih =>
    intro l hlen
    rw [List.range_succ_eq_map]
    simp only [List.map_cons, List.map_map, List.flatten_cons, Nat.zero_mul, List.drop_zero]
    have hfun : (List.range n).map ((fun t => (l.drop (t * B)).take B) ∘ Nat.succ)
        = (List.range n).map (fun t => ((l.drop B).drop (t * B)).take B) := by
      apply List.map_congr_left
      intro t _
      simp only [Function.comp_apply, List.drop_drop]
      have : Nat.succ t * B = t * B + B := Nat.succ_mul t B
      rw [this, Nat.add_comm]
    rw [hfun, ih (l.drop B) (by rw [List.length_drop]; rw [Nat.succ_mul] at hlen; omega)]
    rw [Nat.succ_mul, Nat.add_comm, List.take_add]

lemma chunk_len {α : Type} (l : List α) (B t q : Nat) (ht : t < q) (hq : q * B ≤ l.length) :
    ((l.drop (t * B)).take B).length = B := by
  have h1 : (t + 1) * B ≤ q * B := Nat.mul_le_mul_right B ht
  rw [Nat.succ_mul] at h1
  simp only [List.length_take, List.length_drop]
  omega

lemma makeBatches_exact {α : Type} (l : List α) (B : Nat) (hB : 0 < B)
    (h : l.length % B = 0) :
    makeBatches l B = (List.range (l.length / B)).map (fun t => (l.drop (t * B)).take B) := by
  have hq : l.length / B * B = l.length := Nat.div_mul_cancel (Nat.dvd_of_mod_eq_zero h)
  unfold makeBatches
  rw [if_pos h]
  conv_lhs => rw [← hq]
  rw [pyRange_exact _ _ hB, List.map_map]
  apply List.map_congr_left
  intro t _
  simp [pySlice_chunk]

lemma makeBatches_rem {α : Type} (l : List α) (B : Nat) (hB : 0 < B)
    (h : l.length % B ≠ 0) :
    makeBatches l B
      = ((List.range (l.length / B)).map (fun t => (l.drop (t * B)).take B))
        ++ [l.drop (l.length / B * B)] := by
  have hm := Nat.div_add_mod l.length B
  have hmm : B * (l.length / B) = l.length / B * B := Nat.mul_comm _ _
  have h2 : l.length - l.length % B = l.length / B * B := by omega
  unfold makeBatches
  rw [if_neg h]
  congr 1
  · rw [h2, pyRange_exact _ _ hB, List.map_map]
    apply List.map_congr_left
    intro t _
    simp [pySlice_chunk]
  · rw [h2]
    have hlen : (l.drop (l.length / B * B)).length = l.length - l.length / B * B := by
      simp [List.length_drop]
    simp only [pySlice, List.take_of_length_le (le_of_eq hlen)]

end BatchObjective

/-- C4: For every population size `N ≥ 1` and `batch_size B ≥ 1`,
`BatchObjective.evaluate` partitions the candidates (via the partition step
of lines 81-87, `BatchObjective.makeBatches`) into exactly `ceil(N/B)`
contiguous chunks in original order, every chunk except possibly the last
has length `B`, the last chunk has length `N mod B` (or `B` when `B` divides
`N`) and is never empty, and concatenating the chunks in order reproduces
the original candidate sequence exactly. -/
theorem C4_batch_partition {α : Type} (items : List α) (B : Nat)
    (hB : 1 ≤ B) (hne : items ≠ []) :
    (BatchObjective.makeBatches items B).length = (items.length + B - 1) / B
    ∧ (∀ c ∈ (BatchObjective.makeBatches items B).dropLast, c.length = B)
    ∧ ((BatchObjective.makeBatches items B).getLastD []).length
        = (if items.length % B = 0 then B else items.length % B)
    ∧ (BatchObjective.makeBatches items B).getLastD [] ≠ []
    ∧ (BatchObjective.makeBatches items B).flatten = items := by
  have hB0 : 0 < B := hB
  have hN : 0 < items.length := List.length_pos.mpr hne
  by_cases h : items.length % B = 0
  · -- B divides the population size
    have hq : items.length / B * B = items.length :=
      Nat.div_mul_cancel (Nat.dvd_of_mod_eq_zero h)
    have hqpos : 0 < items.length / B := by
      rcases Nat.eq_zero_or_pos (items.length / B) with h0 | h0
      · rw [h0, Nat.zero_mul] at hq; omega
      · exact h0
    rw [BatchObjective.makeBatches_exact items B hB0 h]
    have hlenall : ∀ c ∈ (List.range (items.length / B)).map
        (fun t => (items.drop (t * B)).take B), c.length = B := by
      intro c hc
      rcases List.mem_map.mp hc with ⟨t, ht, rfl⟩
      exact BatchObjective.chunk_len items B t (items.length / B)
        (List.mem_range.mp ht) (le_of_eq hq)
    refine ⟨?_, ?_, ?_, ?_, ?_⟩
    · rw [List.length_map, List.length_range]
      conv_rhs => rw [← hq]
      rw [BatchObjective.ceil_mul_div _ _ hB0]
    · intro c hc
      exact hlenall c ((List.dropLast_prefix _).subset hc)
    · rw [if_pos h]
      rcases Nat.exists_eq_add_of_lt hqpos with ⟨n, hn⟩
      rw [show items.length / B = n + 1 by omega, List.range_succ, List.map_append,
        List.map_cons, List.map_nil, List.getLastD_concat]
      exact BatchObjective.chunk_len items B n (n + 1) (by omega)
        (by rw [show n + 1 = items.length / B by omega]; exact le_of_eq hq)
    · rcases Nat.exists_eq_add_of_lt hqpos with ⟨n, hn⟩
      rw [show items.length / B = n + 1 by omega, List.range_succ, List.map_append,
        List.map_cons, List.map_nil, List.getLastD_concat]
      intro hcon
      have := BatchObjective.chunk_len items B n (n + 1) (by omega)
        (by rw [show n + 1 = items.length / B by omega]; exact le_of_eq hq)
      rw [hcon] at this
      simp at this
      omega
    · rw [BatchObjective.join_chunks B _ items (le_of_eq hq), hq, List.take_length]
  · -- remainder case
    have hm := Nat.div_add_mod items.length B
    have hmm : B * (items.length / B) = items.length / B * B := Nat.mul_comm _ _
    have hle : items.length / B * B ≤ items.length := by omega
    rw [BatchObjective.makeBatches_rem items B hB0 h]
    refine ⟨?_, ?_, ?_, ?_, ?_⟩
    · rw [List.length_append, List.length_map, List.length_range,
        BatchObjective.ceil_not_dvd items.length B hB0 h]
      rfl
    · intro c hc
      rw [List.dropLast_concat] at hc
      rcases List.mem_map.mp hc with ⟨t, ht, rfl⟩
      exact BatchObjective.chunk_len items B t (items.length / B)
        (List.mem_range.mp ht) hle
    · rw [if_neg h, List.getLastD_concat, List.length_drop]
      omega
    · rw [List.getLastD_concat]
      intro hcon
      have : (items.drop (items.length / B * B)).length = 0 := by rw [hcon]; rfl
      rw [List.length_drop] at this
      omega
    · rw [List.flatten_append, BatchObjective.join_chunks B _ items hle]
      simp only [List.flatten_cons, List.flatten_nil, List.append_nil]
      exact List.take_append_drop _ items

/-- Witness for C4 at `items = [1,2,3,4,5]`, `B = 2`. -/
theorem C4_batch_partition_witness :
    (BatchObjective.makeBatches [1, 2, 3, 4, 5] 2).length = (5 + 2 - 1) / 2
    ∧ (∀ c ∈ (BatchObjective.makeBatches [1, 2, 3, 4, 5] 2).dropLast, c.length = 2)
    ∧ ((BatchObjective.makeBatches [1, 2, 3, 4, 5] 2).getLastD []).length
        = (if ([1, 2, 3, 4, 5] : List Nat).length % 2 = 0 then 2 else ([1, 2, 3, 4, 5] : List Nat).length % 2)
    ∧ (BatchObjective.makeBatches [1, 2, 3, 4, 5] 2).getLastD [] ≠ []
    ∧ (BatchObjective.makeBatches [1, 2, 3, 4, 5] 2).flatten = [1, 2, 3, 4, 5] :=
  C4_batch_partition [1, 2, 3, 4, 5] 2 (by decide) (by decide)

/-! ## Helper lemmas about the numpy model -/

lemma commonWidth_mem {rows : List (List Int)} {n : Nat} (h : commonWidth rows = some n) :
    ∀ r ∈ rows, r.length = n := by
  cases rows with
  | nil => simp [commonWidth] at h
  | cons r rest =>
    simp only [commonWidth] at h
    split at h
    next hall =>
      injection h with h
      subst h
      intro s hs
      rcases List.mem_cons.mp hs with rfl | hs
      · rfl
      · exact of_decide_eq_true (List.all_eq_true.mp hall s hs)
    next => cases h

lemma commonWidth_of_forall {rows : List (List Int)} {n : Nat} (hne : rows ≠ [])
    (h : ∀ r ∈ rows, r.length = n) : commonWidth rows = some n := by
  cases rows with
  | nil => exact absurd rfl hne
  | cons r rest =>
    have hr : r.length = n := h r (List.mem_cons_self r rest)
    have hall : (rest.all fun s => decide (s.length = r.length)) = true := by
      rw [List.all_eq_true]
      intro s hs
      exact decide_eq_true (by rw [h s (List.mem_cons_of_mem r hs), hr])
    have hgoal : commonWidth (r :: rest) = some r.length := by
      simp only [commonWidth]
      rw [if_pos hall]
    rw [hgoal, hr]

lemma length_colsOf (m : List (List Int)) (k : Nat) : (colsOf m k).length = k := by
  simp [colsOf]

lemma mem_colsOf_length {m : List (List Int)} {k : Nat} {c : List Int}
    (hc : c ∈ colsOf m k) : c.length = m.length := by
  rcases List.mem_map.mp hc with ⟨j, _, rfl⟩
  simp

lemma zipWith_mul_replicate_one (r : List Int) :
    List.zipWith (fun x d => x * d) r (List.replicate r.length 1) = r := by
  induction r with
  | nil => rfl
  | cons x rest ih => simp [List.replicate_succ, ih]

lemma npMul_replicate_one {rows : List (List Int)} {n : Nat}
    (h : commonWidth rows = some n) :
    npMul rows (List.replicate n 1) = some rows := by
  have e1 : npMul rows (List.replicate n 1) =
      some (rows.map (fun r => List.zipWith (fun x d => x * d) r (List.replicate n 1))) := by
    unfold npMul
    rw [h]
    simp
  rw [e1]
  congr 1
  conv_rhs => rw [← List.map_id rows]
  apply List.map_congr_left
  intro r hr
  have hr' : r.length = n := commonWidth_mem h r hr
  rw [← hr']
  exact zipWith_mul_replicate_one r

/-! ## Helper lemmas about the constructor -/

namespace Objective

lemma parseDirections_length :
    ∀ {ds : List String} {l : List Int}, parseDirections ds = .ok l → l.length = ds.length := by
  intro ds
  induction ds with
  | nil =>
    intro l h
    injection h with h
    rw [← h]
    rfl
  | cons d rest ih =>
    intro l h
    unfold parseDirections at h
    split at h
    · cases h
    · cases hrec : parseDirections rest with
      | error e => rw [hrec] at h; cases h
      | ok ds' =>
        rw [hrec] at h
        injection h with h
        simp [← h, ih hrec]

lemma parseDirections_error_of_bad {ds : List String} {d : String}
    (hmem : d ∈ ds) (h1 : d ≠ "minimize") (h2 : d ≠ "maximize") :
    ∃ msg, parseDirections ds = .error msg := by
  induction ds with
  | nil => cases hmem
  | cons hd rest ih =>
    rcases List.mem_cons.mp hmem with rfl | hmem'
    · have hc : ¬(d = "minimize" ∨ d = "maximize") := by tauto
      refine ⟨"Direction must be either 'minimize' or 'maximize', got '" ++ d ++ "'.", ?_⟩
      unfold parseDirections
      rw [if_pos hc]
    · unfold parseDirections
      split
      · exact ⟨_, rfl⟩
      · rcases ih hmem' with ⟨msg, hmsg⟩
        rw [hmsg]
        exact ⟨msg, rfl⟩

lemma dirsOf_ok {n : Nat} {ds? : Option (List String)} {dirs : List Int}
    (h : dirsOf n ds? = .ok dirs) :
    dirs.length = n ∧ (ds? = none → dirs = List.replicate n 1) := by
  cases ds? with
  | none =>
    simp only [dirsOf] at h
    injection h with h
    subst h
    exact ⟨by simp, fun _ => rfl⟩
  | some ds =>
    simp only [dirsOf] at h
    split at h
    · cases h
    · next hlen =>
      push_neg at hlen
      refine ⟨?_, by intro hx; cases hx⟩
      rw [parseDirections_length h, hlen]

lemma namesOf_ok {n : Nat} {ns? : Option (List String)} {names : List String}
    (h : namesOf n ns? = .ok names) :
    names.length = n ∧ (ns? = none → names = defaultNames n) := by
  cases ns? with
  | none =>
    simp only [namesOf] at h
    injection h with h
    subst h
    exact ⟨by simp [defaultNames], fun _ => rfl⟩
  | some ns =>
    simp only [namesOf] at h
    split at h
    · cases h
    · next hlen =>
      push_neg at hlen
      injection h with h
      subst h
      exact ⟨hlen, by intro hx; cases hx⟩

/-- Everything `Objective.__init__` guarantees about a successfully
constructed object. -/
lemma init_ok {F : Type} {fns : List F} {num : Option Nat} {ds? : Option (List String)}
    {ns? : Option (List String)} {tp : Option Unit} {cfg : ObjectiveCfg F}
    (h : init fns num ds? ns? tp = .ok cfg) :
    cfg.objective_functions = fns
    ∧ cfg.num_objectives = num.getD fns.length
    ∧ cfg.directions.length = cfg.num_objectives
    ∧ cfg.objective_names.length = cfg.num_objectives
    ∧ (ds? = none → cfg.directions = List.replicate cfg.num_objectives 1)
    ∧ (ns? = none → cfg.objective_names = defaultNames cfg.num_objectives)
    ∧ cfg.true_pareto = tp := by
  cases num with
  | none =>
    simp only [init] at h
    cases hd : dirsOf fns.length ds? with
    | error e => rw [hd] at h; cases h
    | ok dirs =>
      rw [hd] at h
      cases hn : namesOf fns.length ns? with
      | error e => rw [hn] at h; cases h
      | ok names =>
        rw [hn] at h
        injection h with h
        subst h
        exact ⟨rfl, rfl, (dirsOf_ok hd).1, (namesOf_ok hn).1,
          fun hx => (dirsOf_ok hd).2 hx, fun hx => (namesOf_ok hn).2 hx, rfl⟩
  | some k =>
    simp only [init] at h
    cases hd : dirsOf k ds? with
    | error e => rw [hd] at h; cases h
    | ok dirs =>
      rw [hd] at h
      cases hn : namesOf k ns? with
      | error e => rw [hn] at h; cases h
      | ok names =>
        rw [hn] at h
        injection h with h
        subst h
        exact ⟨rfl, rfl, (dirsOf_ok hd).1, (namesOf_ok hn).1,
          fun hx => (dirsOf_ok hd).2 hx, fun hx => (namesOf_ok hn).2 hx, rfl⟩

lemma init_error_of_dirsOf {F : Type} {fns : List F} {num : Option Nat}
    {ds? : Option (List String)} {ns? : Option (List String)} {tp : Option Unit}
    {msg : String} (h : dirsOf (num.getD fns.length) ds? = .error msg) :
    init fns num ds? ns? tp = .error msg := by
  cases num with
  | none => simp only [init]; rw [show (Option.none).getD fns.length = fns.length from rfl] at h; rw [h]
  | some k => simp only [init]; rw [show (some k).getD fns.length = k from rfl] at h; rw [h]

end Objective

/-- C7: For every construction call where `directions` is supplied with a
length different from `num_objectives`, construction raises a configuration
error (`ValueError`) and no objective set is constructed; likewise an error
is raised for any direction token that is neither `"minimize"` nor
`"maximize"`. -/
theorem C7_construction_errors :
    (∀ {F : Type} (fns : List F) (num : Option Nat) (ds : List String)
       (ns? : Option (List String)) (tp : Option Unit),
       ds.length ≠ num.getD fns.length →
       ∃ msg, Objective.init fns num (some ds) ns? tp = .error msg)
    ∧ (∀ {F : Type} (fns : List F) (num : Option Nat) (ds : List String)
       (ns? : Option (List String)) (tp : Option Unit) (d : String),
       d ∈ ds → d ≠ "minimize" → d ≠ "maximize" →
       ∃ msg, Objective.init fns num (some ds) ns? tp = .error msg) := by
  constructor
  · intro F fns num ds ns? tp hlen
    have hd : Objective.dirsOf (num.getD fns.length) (some ds)
        = .error ("Number of directions (" ++ toString ds.length ++
          ") does not match number of objectives (" ++ toString (num.getD fns.length) ++ ").") := by
      simp only [Objective.dirsOf]
      rw [if_pos hlen]
    exact ⟨_, Objective.init_error_of_dirsOf hd⟩
  · intro F fns num ds ns? tp d hmem h1 h2
    by_cases hlen : ds.length ≠ num.getD fns.length
    · have hd : Objective.dirsOf (num.getD fns.length) (some ds)
          = .error ("Number of directions (" ++ toString ds.length ++
            ") does not match number of objectives (" ++ toString (num.getD fns.length) ++ ").") := by
        simp only [Objective.dirsOf]
        rw [if_pos hlen]
      exact ⟨_, Objective.init_error_of_dirsOf hd⟩
    · rcases Objective.parseDirections_error_of_bad hmem h1 h2 with ⟨msg, hmsg⟩
      have hd : Objective.dirsOf (num.getD fns.length) (some ds) = .error msg := by
        simp only [Objective.dirsOf]
        rw [if_neg hlen, hmsg]
      exact ⟨msg, Objective.init_error_of_dirsOf hd⟩

/-- Witness for C7: two directions for one function, and a bad token. -/
theorem C7_construction_errors_witness :
    (∃ msg, Objective.init ([0] : List Nat) none (some ["minimize", "maximize"]) none none
        = .error msg)
    ∧ (∃ msg, Objective.init ([0, 1] : List Nat) none (some ["minimize", "up"]) none none
        = .error msg) :=
  ⟨C7_construction_errors.1 [0] none ["minimize", "maximize"] none none (by decide),
   C7_construction_errors.2 [0, 1] none ["minimize", "up"] none none "up"
     (by decide) (by decide) (by decide)⟩

/-- C8: After every successful construction of any variant (whether
`directions` and names were supplied or defaulted),
`len(directions) == len(names) == num_objectives` holds, with defaulted
names synthesized as `objective_<i>` (`Objective.defaultNames`); the lengths
are never silently truncated or padded. -/
theorem C8_lengths_invariant :
    (∀ {F : Type} (fns : List F) (num : Option Nat) (ds? : Option (List String))
       (ns? : Option (List String)) (tp : Option Unit) (cfg : ObjectiveCfg F),
       Objective.init fns num ds? ns? tp = .ok cfg →
       cfg.directions.length = cfg.num_objectives
       ∧ cfg.objective_names.length = cfg.num_objectives
       ∧ (ns? = none → cfg.objective_names = Objective.defaultNames cfg.num_objectives))
    ∧ (∀ {α ε : Type} (fns : List (AsyncFn α ε)) (bs : Nat) (num : Option Nat)
       (ds? : Option (List String)) (ns? : Option (List String)) (tp : Option Unit)
       (bcfg : BatchObjectiveCfg α ε),
       BatchObjective.init fns bs num ds? ns? tp = .ok bcfg →
       bcfg.directions.length = bcfg.num_objectives
       ∧ bcfg.objective_names.length = bcfg.num_objectives
       ∧ (ns? = none → bcfg.objective_names = Objective.defaultNames bcfg.num_objectives)) := by
  constructor
  · intro F fns num ds? ns? tp cfg h
    rcases Objective.init_ok h with ⟨-, -, h3, h4, -, h6, -⟩
    exact ⟨h3, h4, h6⟩
  · intro α ε fns bs num ds? ns? tp bcfg h
    unfold BatchObjective.init at h
    cases hb : Objective.init fns num ds? ns? tp with
    | error e => rw [hb] at h; cases h
    | ok base =>
      rw [hb] at h
      injection h with h
      subst h
      rcases Objective.init_ok hb with ⟨-, -, h3, h4, -, h6, -⟩
      exact ⟨h3, h4, h6⟩

/-- Witness for C8 with defaulted directions and names, for the base variant
and the batch variant. -/
theorem C8_lengths_invariant_witness :
    (let cfg : ObjectiveCfg Nat := ⟨[0, 1], 2, [1, 1], ["objective_0", "objective_1"], none⟩
     cfg.directions.length = cfg.num_objectives
     ∧ cfg.objective_names.length = cfg.num_objectives
     ∧ ((none : Option (List String)) = none →
        cfg.objective_names = Objective.defaultNames cfg.num_objectives))
    ∧ (let bcfg : BatchObjectiveCfg Int Nat :=
         ⟨⟨[asyncFlatId], 1, [1], ["objective_0"], none⟩, 3⟩
       bcfg.directions.length = bcfg.num_objectives
       ∧ bcfg.objective_names.length = bcfg.num_objectives
       ∧ ((none : Option (List String)) = none →
          bcfg.objective_names = Objective.defaultNames bcfg.num_objectives)) :=
  ⟨C8_lengths_invariant.1 [0, 1] none none none none
      ⟨[0, 1], 2, [1, 1], ["objective_0", "objective_1"], none⟩ rfl,
   C8_lengths_invariant.2 [asyncFlatId] 3 none none none none
      ⟨⟨[asyncFlatId], 1, [1], ["objective_0"], none⟩, 3⟩ rfl⟩

/-- C9 counterexample: constructing a `BatchObjective` with `batch_size = 0`
raises no error at construction time; the constructor succeeds and stores
the zero batch size (contradicting the claim that a zero `batch_size`
raises a configuration error at construction time). -/
theorem C9_counterexample :
    BatchObjective.init [asyncFlatId] 0 none none none none
      = .ok ⟨⟨[asyncFlatId], 1, [1], ["objective_0"], none⟩, 0⟩ := rfl

/-- C9 (amended): `batch_size` is a required constructor parameter, but a
zero value is accepted at construction without any validation (line 72);
the error is deferred to the first `evaluate` call, where `len(items) %
self.batch_size` (line 81) raises `ZeroDivisionError`. -/
theorem C9_amended {α ε : Type} (fns : List (AsyncFn α ε)) (num : Option Nat)
    (ds? : Option (List String)) (ns? : Option (List String)) (tp : Option Unit)
    (c : ObjectiveCfg (AsyncFn α ε))
    (h : Objective.init fns num ds? ns? tp = .ok c) :
    BatchObjective.init fns 0 num ds? ns? tp = .ok ⟨c, 0⟩
    ∧ ∀ items : List α, BatchObjective.evaluate ⟨c, 0⟩ items = .error .zeroDivisionError := by
  constructor
  · unfold BatchObjective.init
    rw [h]
  · intro items
    unfold BatchObjective.evaluate
    rw [if_pos rfl]

/-- Witness for C9 (amended) at a concrete configuration and population. -/
theorem C9_amended_witness :
    BatchObjective.init [asyncFlatId] 0 none none none none
      = .ok ⟨⟨[asyncFlatId], 1, [1], ["objective_0"], none⟩, 0⟩
    ∧ BatchObjective.evaluate
        (⟨⟨[asyncFlatId], 1, [1], ["objective_0"], none⟩, 0⟩ : BatchObjectiveCfg Int Nat)
        [1, 2, 3] = .error .zeroDivisionError :=
  ⟨(C9_amended [asyncFlatId] none none none none
      ⟨[asyncFlatId], 1, [1], ["objective_0"], none⟩ rfl).1,
   (C9_amended [asyncFlatId] none none none none
      ⟨[asyncFlatId], 1, [1], ["objective_0"], none⟩ rfl).2 [1, 2, 3]⟩

/-! ## Transpose and broadcast helper lemmas -/

lemma npTranspose_eq {rows : List (List Int)} {w : Nat} (h : commonWidth rows = some w) :
    npTranspose rows = some (colsOf rows w) := by
  simp [npTranspose, h]

lemma npMul_eq_zip {rows : List (List Int)} {dirs : List Int}
    (h : commonWidth rows = some dirs.length) :
    npMul rows dirs = some (rows.map (fun r => List.zipWith (fun x d => x * d) r dirs)) := by
  simp [npMul, h]

lemma range_map_getD (r : List Int) :
    (List.range r.length).map (fun j => r.getD j 0) = r := by
  induction r with
  | nil => rfl
  | cons x rest ih =>
    rw [List.length_cons, List.range_succ_eq_map, List.map_cons, List.map_map]
    congr 1

lemma colsOf_map_map {α : Type} (gs : List (α → Int)) (items : List α) :
    colsOf (gs.map (fun g => items.map g)) items.length
      = items.map (fun x => gs.map (fun g => g x)) := by
  apply List.ext_getElem
  · simp [colsOf]
  · intro i h1 h2
    have hi : i < items.length := by simpa [colsOf] using h1
    simp only [colsOf, List.getElem_map, List.getElem_range, List.map_map]
    apply List.map_congr_left
    intro g _
    simp only [Function.comp_apply]
    rw [List.getD_eq_getElem (l := items.map g) (d := 0) (by simpa using hi)]
    simp

lemma colsOf_colsOf {m : List (List Int)} {k : Nat} (h : ∀ r ∈ m, r.length = k) :
    colsOf (colsOf m k) m.length = m := by
  apply List.ext_getElem
  · simp [colsOf]
  · intro i h1 h2
    have hi : i < m.length := h2
    simp only [colsOf, List.getElem_map, List.getElem_range, List.map_map]
    have hm : m[i].length = k := h _ (List.getElem_mem hi)
    conv_rhs => rw [← range_map_getD m[i], hm]
    apply List.map_congr_left
    intro j _
    simp only [Function.comp_apply]
    rw [List.getD_eq_getElem (l := m.map (fun r => r.getD j 0)) (d := 0) (by simpa using hi)]
    simp

lemma makeBatches_flatten {α : Type} (items : List α) (B : Nat) (hB : 0 < B) :
    (BatchObjective.makeBatches items B).flatten = items := by
  by_cases h : items.length % B = 0
  · have hq : items.length / B * B = items.length :=
      Nat.div_mul_cancel (Nat.dvd_of_mod_eq_zero h)
    rw [BatchObjective.makeBatches_exact items B hB h,
      BatchObjective.join_chunks B _ items (le_of_eq hq), hq, List.take_length]
  · have hm := Nat.div_add_mod items.length B
    have hmm : B * (items.length / B) = items.length / B * B := Nat.mul_comm _ _
    have hle : items.length / B * B ≤ items.length := by omega
    rw [BatchObjective.makeBatches_rem items B hB h, List.flatten_append,
      BatchObjective.join_chunks B _ items hle]
    simp only [List.flatten_cons, List.flatten_nil, List.append_nil]
    exact List.take_append_drop _ items

lemma flatten_map {α β : Type} (f : α → β) :
    ∀ L : List (List α), (L.map (fun l => l.map f)).flatten = L.flatten.map f := by
  intro L
  induction L with
  | nil => rfl
  | cons b rest ih => simp only [List.map_cons, List.flatten_cons, List.map_append, ih]

lemma ewCollect_scalars (xs : List Int) :
    ewCollect (xs.map EWRes.scalar) = some (.flat xs) := by
  have hall : (xs.map EWRes.scalar).all EWRes.isScalar = true := by
    rw [List.all_eq_true]
    intro o ho
    rcases List.mem_map.mp ho with ⟨x, _, rfl⟩
    rfl
  unfold ewCollect
  rw [if_pos hall, List.map_map]
  have hc : EWRes.scalarVal ∘ EWRes.scalar = id := rfl
  rw [hc, List.map_id]

/-! ## Closed forms of the element-wise evaluation -/

namespace ElementWiseObjective

lemma collectItems_scalar {α ε : Type} (g : α → Int) (items : List α) :
    collectItems (ewScalarFn (ε := ε) g) items = .ok (items.map (fun x => .scalar (g x))) := by
  induction items with
  | nil => rfl
  | cons x rest ih => simp [collectItems, ewScalarFn, ih]

lemma collectAll_scalars {α ε : Type} (gs : List (α → Int)) (items : List α) :
    collectAll (gs.map (ewScalarFn (ε := ε))) items
      = .ok (gs.map (fun g => items.map (fun x => EWRes.scalar (g x)))) := by
  induction gs with
  | nil => rfl
  | cons g rest ih => simp [collectAll, collectItems_scalar, ih]

lemma buildSolutions_scalars {α : Type} (gs : List (α → Int)) (items : List α) :
    buildSolutions (gs.map (fun g => items.map (fun x => EWRes.scalar (g x))))
      = some (gs.map (fun g => items.map g)) := by
  induction gs with
  | nil => rfl
  | cons g rest ih =>
    have h1 : ewCollect (items.map (fun x => EWRes.scalar (g x))) = some (.flat (items.map g)) := by
      have h2 : items.map (fun x => EWRes.scalar (g x)) = (items.map g).map EWRes.scalar := by
        rw [List.map_map]
        rfl
      rw [h2, ewCollect_scalars]
    simp only [List.map_cons, buildSolutions, h1, ih]

/-- Closed form of `ElementWiseObjective.evaluate` on a set of scalar-valued
per-item functions `gs`: the fitness matrix has one row per candidate,
row `i` being `[g_0 x_i * d_0, ..., g_(k-1) x_i * d_(k-1)]`. -/
lemma evaluate_scalars {α ε : Type} (gs : List (α → Int)) (n : Nat) (dirs : List Int)
    (names : List String) (tp : Option Unit) (items : List α)
    (hgs : gs ≠ []) (hitems : items ≠ []) (hdl : dirs.length = gs.length) :
    evaluate (⟨gs.map (ewScalarFn (ε := ε)), n, dirs, names, tp⟩ :
        ObjectiveCfg (α → Except ε EWRes)) items
      = .ok (items.map (fun x =>
          List.zipWith (fun v d => v * d) (gs.map (fun g => g x)) dirs)) := by
  have hsol : commonWidth (gs.map (fun g => items.map g)) = some items.length := by
    apply commonWidth_of_forall
    · simpa using hgs
    · intro r hr
      rcases List.mem_map.mp hr with ⟨g, _, rfl⟩
      simp
  have htr : npTranspose (gs.map (fun g => items.map g))
      = some (items.map (fun x => gs.map (fun g => g x))) := by
    rw [npTranspose_eq hsol, colsOf_map_map]
  have hmulw : commonWidth (items.map (fun x => gs.map (fun g => g x)))
      = some dirs.length := by
    apply commonWidth_of_forall
    · simpa using hitems
    · intro r hr
      rcases List.mem_map.mp hr with ⟨x, _, rfl⟩
      simp [hdl]
  have hmul := npMul_eq_zip hmulw
  simp only [evaluate, collectAll_scalars, buildSolutions_scalars, htr, hmul, List.map_map]
  rfl

end ElementWiseObjective

/-! ## Closed form of the vectorized evaluation on a two-dimensional result -/

namespace Objective

/-- Closed form of `Objective.evaluate` on a single vectorized function that
returns a two-dimensional result with one row `g x` per candidate `x` (the
convention exercised by the repository's own test suite): the rows are
appended untransposed, so the output has one row per candidate. -/
lemma evaluate_single_mat {α ε : Type} (F : List α → Except ε NpRes) (g : α → List Int)
    (n : Nat) (dirs : List Int) (names : List String) (tp : Option Unit) (items : List α)
    (hF : F items = .ok (.mat (items.map g)))
    (hw : ∀ x ∈ items, (g x).length = dirs.length)
    (hne : items ≠ []) :
    evaluate (⟨[F], n, dirs, names, tp⟩ : ObjectiveCfg (List α → Except ε NpRes)) items
      = .ok (items.map (fun x => List.zipWith (fun v d => v * d) (g x) dirs)) := by
  have hcoll : collectResults [F] items = .ok [.mat (items.map g)] := by
    simp [collectResults, hF]
  have hflat : flattenSolutions [.mat (items.map g)] = items.map g := by
    simp [flattenSolutions]
  have hcw : commonWidth (items.map g) = some dirs.length := by
    apply commonWidth_of_forall
    · simpa using hne
    · intro r hr
      rcases List.mem_map.mp hr with ⟨x, hx, rfl⟩
      exact hw x hx
  have hmul := npMul_eq_zip hcw
  simp only [evaluate, hcoll, hflat, hmul, List.map_map]
  rfl

end Objective

/-! ## Closed form of the batch evaluation on a two-dimensional result -/

lemma npConcatenate_mats {β : Type} (bs : List β) (f : β → List (List Int)) (hbs : bs ≠ []) :
    npConcatenate (bs.map (fun b => NpRes.mat (f b)))
      = some (.mat ((bs.map f).flatten)) := by
  cases bs with
  | nil => exact absurd rfl hbs
  | cons b rest =>
    have h1 : ((b :: rest).map (fun b => NpRes.mat (f b))).all
        (fun o => match o with | .flat _ => true | .mat _ => false) = false := by
      simp
    have h2 : ((b :: rest).map (fun b => NpRes.mat (f b))).all
        (fun o => match o with | .flat _ => false | .mat _ => true) = true := by
      rw [List.all_eq_true]
      intro o ho
      rcases List.mem_map.mp ho with ⟨x, _, rfl⟩
      rfl
    unfold npConcatenate
    rw [if_neg (by rw [h1]; exact Bool.false_ne_true), if_pos h2, List.map_map]
    rfl

namespace BatchObjective

lemma gather_mat {α ε : Type} (g : α → List Int) (batches : List (List α)) :
    gather (fun b => (.ok (.mat (b.map g)) : Except ε NpRes)) batches
      = .ok (batches.map (fun b => NpRes.mat (b.map g))) := by
  induction batches with
  | nil => rfl
  | cons b rest ih => simp only [gather, ih, List.map_cons]

lemma makeBatches_ne_nil {α : Type} (items : List α) (B : Nat) (hB : 0 < B)
    (hne : items ≠ []) : makeBatches items B ≠ [] := by
  intro hx
  have := makeBatches_flatten items B hB
  rw [hx] at this
  exact hne this.symm

/-- Closed form of `BatchObjective.evaluate` on a single asynchronous
function that returns, per batch, a two-dimensional result with one row
`g x` per candidate `x`: concatenating the batch outputs restores one row
per candidate in original order, and the rows are appended untransposed. -/
lemma evaluate_batched_mat {α ε : Type} (g : α → List Int) (B : Nat) (n : Nat)
    (dirs : List Int) (names : List String) (tp : Option Unit) (items : List α)
    (hB : 0 < B) (hne : items ≠ [])
    (hw : ∀ x ∈ items, (g x).length = dirs.length) :
    evaluate (⟨⟨[batchMatFn (ε := ε) g], n, dirs, names, tp⟩, B⟩ : BatchObjectiveCfg α ε) items
      = .ok (items.map (fun x => List.zipWith (fun v d => v * d) (g x) dirs)) := by
  have hBne : ¬(B = 0) := by omega
  have hflat : (makeBatches items B).flatten = items := makeBatches_flatten items B hB
  have hbne : makeBatches items B ≠ [] := makeBatches_ne_nil items B hB hne
  have hcat : npConcatenate ((makeBatches items B).map (fun b => NpRes.mat (b.map g)))
      = some (.mat (items.map g)) := by
    rw [npConcatenate_mats _ _ hbne, flatten_map, hflat]
  have hrun : runFns [batchMatFn (ε := ε) g] (makeBatches items B)
      = .ok [.mat (items.map g)] := by
    simp only [runFns, batchMatFn, gather_mat, async_evaluate, hcat, Bool.true_eq_false,
      if_neg, ite_false]
  have hflat2 : Objective.flattenSolutions [NpRes.mat (items.map g)] = items.map g := by
    simp [Objective.flattenSolutions]
  have hcw : commonWidth (items.map g) = some dirs.length := by
    apply commonWidth_of_forall
    · simpa using hne
    · intro r hr
      rcases List.mem_map.mp hr with ⟨x, hx, rfl⟩
      exact hw x hx
  have hmul := npMul_eq_zip hcw
  simp only [evaluate, hBne, ite_false, hrun, hflat2, hmul, List.map_map]
  rfl

end BatchObjective

/-! ## Closed form of the asynchronous element-wise evaluation -/

namespace AsyncElementWiseObjective

lemma gatherItems_scalar {α ε : Type} (g : α → Int) (items : List α) :
    gatherItems (fun x => (.ok (.scalar (g x)) : Except ε EWRes)) items
      = .ok (items.map (fun x => EWRes.scalar (g x))) := by
  induction items with
  | nil => rfl
  | cons x rest ih => simp only [gatherItems, ih, List.map_cons]

lemma runFns_scalars {α ε : Type} (gs : List (α → Int)) (items : List α) :
    runFns (gs.map (asyncScalarFn (ε := ε))) items
      = .ok (gs.map (fun g => NpRes.flat (items.map g))) := by
  induction gs with
  | nil => rfl
  | cons g rest ih =>
    have h1 : ewCollect (items.map (fun x => EWRes.scalar (g x)))
        = some (.flat (items.map g)) := by
      have h2 : items.map (fun x => EWRes.scalar (g x)) = (items.map g).map EWRes.scalar := by
        rw [List.map_map]
        rfl
      rw [h2, ewCollect_scalars]
    simp only [List.map_cons, runFns, async_evaluate, asyncScalarFn, Bool.true_eq_false,
      if_neg, ite_false, gatherItems_scalar, h1, ih]

lemma buildSolutions_flats (vs : List (List Int)) :
    buildSolutions (vs.map NpRes.flat) = some vs := by
  induction vs with
  | nil => rfl
  | cons v rest ih => simp only [List.map_cons, buildSolutions, ih]

/-- Closed form of `AsyncElementWiseObjective.evaluate` on a set of
asynchronous scalar-valued per-item functions `gs`. -/
lemma evaluate_async_scalars {α ε : Type} (gs : List (α → Int)) (n : Nat) (dirs : List Int)
    (names : List String) (tp : Option Unit) (items : List α)
    (hgs : gs ≠ []) (hitems : items ≠ []) (hdl : dirs.length = gs.length) :
    evaluate (⟨gs.map (asyncScalarFn (ε := ε)), n, dirs, names, tp⟩ :
        ObjectiveCfg (AsyncItemFn α ε)) items
      = .ok (items.map (fun x =>
          List.zipWith (fun v d => v * d) (gs.map (fun g => g x)) dirs)) := by
  have hbuild : buildSolutions (gs.map (fun g => NpRes.flat (items.map g)))
      = some (gs.map (fun g => items.map g)) := by
    have h2 : gs.map (fun g => NpRes.flat (items.map g))
        = (gs.map (fun g => items.map g)).map NpRes.flat := by
      rw [List.map_map]
      rfl
    rw [h2, buildSolutions_flats]
  have hsol : commonWidth (gs.map (fun g => items.map g)) = some items.length := by
    apply commonWidth_of_forall
    · simpa using hgs
    · intro r hr
      rcases List.mem_map.mp hr with ⟨g, _, rfl⟩
      simp
  have htr : npTranspose (gs.map (fun g => items.map g))
      = some (items.map (fun x => gs.map (fun g => g x))) := by
    rw [npTranspose_eq hsol, colsOf_map_map]
  have hmulw : commonWidth (items.map (fun x => gs.map (fun g => g x)))
      = some dirs.length := by
    apply commonWidth_of_forall
    · simpa using hitems
    · intro r hr
      rcases List.mem_map.mp hr with ⟨x, _, rfl⟩
      simp [hdl]
  have hmul := npMul_eq_zip hmulw
  simp only [evaluate, runFns_scalars, hbuild, htr, hmul, List.map_map]
  rfl

end AsyncElementWiseObjective

/-! ## Closed form of the element-wise evaluation on a vector-valued function -/

lemma ewCollect_vecs (xs : List (List Int)) {w : Nat} (hne : xs ≠ [])
    (hw : commonWidth xs = some w) :
    ewCollect (xs.map EWRes.vec) = some (.mat xs) := by
  cases xs with
  | nil => exact absurd rfl hne
  | cons x rest =>
    have h1 : ((x :: rest).map EWRes.vec).all EWRes.isScalar = false := by
      simp [EWRes.isScalar]
    have h2 : ((x :: rest).map EWRes.vec).all (fun o => o.isScalar = false) = true := by
      rw [List.all_eq_true]
      intro o ho
      rcases List.mem_map.mp ho with ⟨y, _, rfl⟩
      rfl
    have h3 : ((x :: rest).map EWRes.vec).map EWRes.vecVal = x :: rest := by
      rw [List.map_map]
      have hc : EWRes.vecVal ∘ EWRes.vec = id := rfl
      rw [hc, List.map_id]
    unfold ewCollect
    rw [if_neg (by rw [h1]; exact Bool.false_ne_true), if_pos h2, h3, hw]

namespace ElementWiseObjective

lemma collectItems_vec {α ε : Type} (g : α → List Int) (items : List α) :
    collectItems (ewVecFn (ε := ε) g) items = .ok (items.map (fun x => .vec (g x))) := by
  induction items with
  | nil => rfl
  | cons x rest ih => simp [collectItems, ewVecFn, ih]

/-- Closed form of `ElementWiseObjective.evaluate` on a single vector-valued
per-item function `g`: the `(N, k)` collected result is transposed into `k`
columns and transposed back by the final `.T`, so the output again has one
row `g x * directions` per candidate `x`. -/
lemma evaluate_single_vec {α ε : Type} (g : α → List Int) (n : Nat) (dirs : List Int)
    (names : List String) (tp : Option Unit) (items : List α)
    (hw : ∀ x ∈ items, (g x).length = dirs.length)
    (hne : items ≠ []) (hk : dirs ≠ []) :
    evaluate (⟨[ewVecFn (ε := ε) g], n, dirs, names, tp⟩ :
        ObjectiveCfg (α → Except ε EWRes)) items
      = .ok (items.map (fun x => List.zipWith (fun v d => v * d) (g x) dirs)) := by
  have hcoll : collectAll [ewVecFn (ε := ε) g] items
      = .ok [items.map (fun x => .vec (g x))] := by
    simp [collectAll, collectItems_vec]
  have hcw : commonWidth (items.map g) = some dirs.length := by
    apply commonWidth_of_forall
    · simpa using hne
    · intro r hr
      rcases List.mem_map.mp hr with ⟨x, hx, rfl⟩
      exact hw x hx
  have he : ewCollect (items.map (fun x => EWRes.vec (g x))) = some (.mat (items.map g)) := by
    have h2 : items.map (fun x => EWRes.vec (g x)) = (items.map g).map EWRes.vec := by
      rw [List.map_map]
      rfl
    rw [h2, ewCollect_vecs _ (by simpa using hne) hcw]
  have hbuild : buildSolutions [items.map (fun x => EWRes.vec (g x))]
      = some (colsOf (items.map g) dirs.length) := by
    simp only [buildSolutions, he, npTranspose_eq hcw, List.append_nil]
  have hcolsne : colsOf (items.map g) dirs.length ≠ [] := by
    intro hx
    have := length_colsOf (items.map g) dirs.length
    rw [hx] at this
    exact hk (List.length_eq_zero.mp this.symm)
  have hcw2 : commonWidth (colsOf (items.map g) dirs.length) = some (items.map g).length :=
    commonWidth_of_forall hcolsne (fun c hc => mem_colsOf_length hc)
  have htr : npTranspose (colsOf (items.map g) dirs.length) = some (items.map g) := by
    rw [npTranspose_eq hcw2]
    have hwid : ∀ r ∈ items.map g, r.length = dirs.length := by
      intro r hr
      rcases List.mem_map.mp hr with ⟨x, hx, rfl⟩
      exact hw x hx
    rw [colsOf_colsOf hwid]
  have hmul := npMul_eq_zip hcw
  simp only [evaluate, hcoll, hbuild, htr, hmul, List.map_map]
  rfl

end ElementWiseObjective

/-- C1 counterexample: a successfully constructed base `Objective` holding
one vectorized function that returns one flat fitness value per candidate
(`okFlatId`), evaluated on the two candidates `[5, 7]`, yields the matrix
`[[5, 7]]`: one row of two columns, not the claimed two rows
(`N = 2`) of `num_objectives = 1` columns — `Objective.evaluate` appends
flat results as rows without transposing. -/
theorem C1_counterexample :
    Objective.init [okFlatId] none none none none
      = .ok (⟨[okFlatId], 1, [1], ["objective_0"], none⟩ :
          ObjectiveCfg (List Int → Except Nat NpRes))
    ∧ Objective.evaluate (⟨[okFlatId], 1, [1], ["objective_0"], none⟩ :
          ObjectiveCfg (List Int → Except Nat NpRes)) [5, 7]
      = .ok [[5, 7]]
    ∧ ([5, 7] : List Int).length = 2
    ∧ ([[5, 7]] : List (List Int)).length = 1
    ∧ (1 : Nat) ≠ 2 :=
  ⟨rfl, rfl, rfl, rfl, by decide⟩

/-- C1 (amended): the element-wise variants (`ElementWiseObjective`,
`AsyncElementWiseObjective`) always return a matrix of exactly `N` rows and
`len(directions) = num_objectives` columns; the vectorized variants
(`Objective`, `BatchObjective`) do so when every function returns a
two-dimensional result with one row per candidate, but stack flat
(one-dimensional) results as rows without transposing, so for flat results
their output is the transpose `(num_objectives, N)` (see the
counterexample). -/
theorem C1_amended :
    (∀ {α ε : Type} (gs : List (α → Int)) (n : Nat) (dirs : List Int) (names : List String)
       (tp : Option Unit) (items : List α), gs ≠ [] → items ≠ [] → dirs.length = gs.length →
       ∃ M, ElementWiseObjective.evaluate (⟨gs.map (ewScalarFn (ε := ε)), n, dirs, names, tp⟩ :
             ObjectiveCfg (α → Except ε EWRes)) items = .ok M
         ∧ M.length = items.length ∧ ∀ row ∈ M, row.length = dirs.length)
    ∧ (∀ {α ε : Type} (gs : List (α → Int)) (n : Nat) (dirs : List Int) (names : List String)
       (tp : Option Unit) (items : List α), gs ≠ [] → items ≠ [] → dirs.length = gs.length →
       ∃ M, AsyncElementWiseObjective.evaluate
             (⟨gs.map (asyncScalarFn (ε := ε)), n, dirs, names, tp⟩ :
               ObjectiveCfg (AsyncItemFn α ε)) items = .ok M
         ∧ M.length = items.length ∧ ∀ row ∈ M, row.length = dirs.length)
    ∧ (∀ {α ε : Type} (F : List α → Except ε NpRes) (g : α → List Int) (n : Nat)
       (dirs : List Int) (names : List String) (tp : Option Unit) (items : List α),
       F items = .ok (.mat (items.map g)) → (∀ x ∈ items, (g x).length = dirs.length) →
       items ≠ [] →
       ∃ M, Objective.evaluate (⟨[F], n, dirs, names, tp⟩ :
             ObjectiveCfg (List α → Except ε NpRes)) items = .ok M
         ∧ M.length = items.length ∧ ∀ row ∈ M, row.length = dirs.length)
    ∧ (∀ {α ε : Type} (g : α → List Int) (B : Nat) (n : Nat) (dirs : List Int)
       (names : List String) (tp : Option Unit) (items : List α),
       0 < B → items ≠ [] → (∀ x ∈ items, (g x).length = dirs.length) →
       ∃ M, BatchObjective.evaluate (⟨⟨[batchMatFn (ε := ε) g], n, dirs, names, tp⟩, B⟩ :
             BatchObjectiveCfg α ε) items = .ok M
         ∧ M.length = items.length ∧ ∀ row ∈ M, row.length = dirs.length) := by
  refine ⟨?_, ?_, ?_, ?_⟩
  · intro α ε gs n dirs names tp items hgs hitems hdl
    refine ⟨_, ElementWiseObjective.evaluate_scalars gs n dirs names tp items hgs hitems hdl,
      by simp, ?_⟩
    intro row hrow
    rcases List.mem_map.mp hrow with ⟨x, _, rfl⟩
    simp [hdl]
  · intro α ε gs n dirs names tp items hgs hitems hdl
    refine ⟨_, AsyncElementWiseObjective.evaluate_async_scalars gs n dirs names tp items hgs hitems hdl,
      by simp, ?_⟩
    intro row hrow
    rcases List.mem_map.mp hrow with ⟨x, _, rfl⟩
    simp [hdl]
  · intro α ε F g n dirs names tp items hF hw hne
    refine ⟨_, Objective.evaluate_single_mat F g n dirs names tp items hF hw hne,
      by simp, ?_⟩
    intro row hrow
    rcases List.mem_map.mp hrow with ⟨x, hx, rfl⟩
    simp [hw x hx]
  · intro α ε g B n dirs names tp items hB hne hw
    refine ⟨_, BatchObjective.evaluate_batched_mat g B n dirs names tp items hB hne hw,
      by simp, ?_⟩
    intro row hrow
    rcases List.mem_map.mp hrow with ⟨x, hx, rfl⟩
    simp [hw x hx]

/-- Witness for C1 (amended) with two scalar functions on two candidates
(element-wise variants) and a two-column function on two candidates
(vectorized variants). -/
theorem C1_amended_witness :
    (∃ M, ElementWiseObjective.evaluate
        (⟨[fun x => x, fun x => x * x].map (ewScalarFn (ε := Nat)), 2, [1, -1], ["a", "b"], none⟩ :
          ObjectiveCfg (Int → Except Nat EWRes)) [2, 3] = .ok M
      ∧ M.length = ([2, 3] : List Int).length ∧ ∀ row ∈ M, row.length = ([1, -1] : List Int).length)
    ∧ (∃ M, AsyncElementWiseObjective.evaluate
        (⟨[fun x => x, fun x => x * x].map (asyncScalarFn (ε := Nat)), 2, [1, -1], ["a", "b"], none⟩ :
          ObjectiveCfg (AsyncItemFn Int Nat)) [2, 3] = .ok M
      ∧ M.length = ([2, 3] : List Int).length ∧ ∀ row ∈ M, row.length = ([1, -1] : List Int).length)
    ∧ (∃ M, Objective.evaluate (⟨[okMatPair], 2, [1, -1], ["a", "b"], none⟩ :
          ObjectiveCfg (List Int → Except Nat NpRes)) [2, 3] = .ok M
      ∧ M.length = ([2, 3] : List Int).length ∧ ∀ row ∈ M, row.length = ([1, -1] : List Int).length)
    ∧ (∃ M, BatchObjective.evaluate
        (⟨⟨[batchMatFn (ε := Nat) (fun p => [p, p * p])], 2, [1, -1], ["a", "b"], none⟩, 2⟩ :
          BatchObjectiveCfg Int Nat) [2, 3] = .ok M
      ∧ M.length = ([2, 3] : List Int).length ∧ ∀ row ∈ M, row.length = ([1, -1] : List Int).length) :=
  ⟨C1_amended.1 [fun x => x, fun x => x * x] 2 [1, -1] ["a", "b"] none [2, 3]
      (List.cons_ne_nil _ _) (List.cons_ne_nil _ _) rfl,
   C1_amended.2.1 [fun x => x, fun x => x * x] 2 [1, -1] ["a", "b"] none [2, 3]
      (List.cons_ne_nil _ _) (List.cons_ne_nil _ _) rfl,
   C1_amended.2.2.1 okMatPair (fun p => [p, p * p]) 2 [1, -1] ["a", "b"] none [2, 3]
      rfl (by decide) (List.cons_ne_nil _ _),
   C1_amended.2.2.2 (fun p => [p, p * p]) 2 2 [1, -1] ["a", "b"] none [2, 3]
      (by decide) (List.cons_ne_nil _ _) (by decide)⟩

/-- C2 counterexample: a base `Objective` constructed with two flat
vectorized functions and directions `["minimize", "maximize"]` on two
candidates.  The raw values are `objective 0 = [0, 5]` and
`objective 1 = [7, 0]` (indexed by candidate).  The claim says entry
`(0, 1)` of the fitness matrix equals `directions[1] * raw(objective 1,
candidate 0) = -1 * 7 = -7`, but the code computes `[[0, -5], [7, 0]]` —
it stacks objectives as rows and multiplies `directions` along the
candidate axis, so entry `(0, 1)` is `-5`. -/
theorem C2_counterexample :
    Objective.init [okFlat05, okFlat70] none (some ["minimize", "maximize"]) none none
      = .ok (⟨[okFlat05, okFlat70], 2, [1, -1], ["objective_0", "objective_1"], none⟩ :
          ObjectiveCfg (List Int → Except Nat NpRes))
    ∧ Objective.evaluate (⟨[okFlat05, okFlat70], 2, [1, -1], ["objective_0", "objective_1"], none⟩ :
          ObjectiveCfg (List Int → Except Nat NpRes)) [10, 20]
      = .ok [[0, -5], [7, 0]]
    ∧ okFlat70 [10, 20] = .ok (.flat [7, 0])
    ∧ (([[0, -5], [7, 0]] : List (List Int)).getD 0 []).getD 1 0 = -5
    ∧ (-5 : Int) ≠ (-1) * 7 :=
  ⟨rfl, rfl, rfl, rfl, by decide⟩

/-- C2 (amended): the column-wise sign multiplication is the only
transformation applied to raw values for the element-wise variants, whose
entry `(i, j)` equals `raw value of objective j on candidate i` times
`directions[j]`; the same holds for the vectorized and batch variants when
the function returns a two-dimensional row-per-candidate result.  For the
vectorized/batch variants on flat per-function vectors the matrix is
instead transposed and the signs are applied along the candidate axis (see
the counterexample). -/
theorem C2_amended :
    (∀ {α ε : Type} (gs : List (α → Int)) (n : Nat) (dirs : List Int) (names : List String)
       (tp : Option Unit) (items : List α), gs ≠ [] → items ≠ [] → dirs.length = gs.length →
       ElementWiseObjective.evaluate (⟨gs.map (ewScalarFn (ε := ε)), n, dirs, names, tp⟩ :
           ObjectiveCfg (α → Except ε EWRes)) items
         = .ok (items.map (fun x =>
             List.zipWith (fun v d => v * d) (gs.map (fun g => g x)) dirs)))
    ∧ (∀ {α ε : Type} (gs : List (α → Int)) (n : Nat) (dirs : List Int) (names : List String)
       (tp : Option Unit) (items : List α), gs ≠ [] → items ≠ [] → dirs.length = gs.length →
       AsyncElementWiseObjective.evaluate
           (⟨gs.map (asyncScalarFn (ε := ε)), n, dirs, names, tp⟩ :
             ObjectiveCfg (AsyncItemFn α ε)) items
         = .ok (items.map (fun x =>
             List.zipWith (fun v d => v * d) (gs.map (fun g => g x)) dirs)))
    ∧ (∀ {α ε : Type} (F : List α → Except ε NpRes) (g : α → List Int) (n : Nat)
       (dirs : List Int) (names : List String) (tp : Option Unit) (items : List α),
       F items = .ok (.mat (items.map g)) → (∀ x ∈ items, (g x).length = dirs.length) →
       items ≠ [] →
       Objective.evaluate (⟨[F], n, dirs, names, tp⟩ :
           ObjectiveCfg (List α → Except ε NpRes)) items
         = .ok (items.map (fun x => List.zipWith (fun v d => v * d) (g x) dirs)))
    ∧ (∀ {α ε : Type} (g : α → List Int) (B : Nat) (n : Nat) (dirs : List Int)
       (names : List String) (tp : Option Unit) (items : List α),
       0 < B → items ≠ [] → (∀ x ∈ items, (g x).length = dirs.length) →
       BatchObjective.evaluate (⟨⟨[batchMatFn (ε := ε) g], n, dirs, names, tp⟩, B⟩ :
           BatchObjectiveCfg α ε) items
         = .ok (items.map (fun x => List.zipWith (fun v d => v * d) (g x) dirs))) :=
  ⟨fun gs n dirs names tp items hgs hitems hdl =>
     ElementWiseObjective.evaluate_scalars gs n dirs names tp items hgs hitems hdl,
   fun gs n dirs names tp items hgs hitems hdl =>
     AsyncElementWiseObjective.evaluate_async_scalars gs n dirs names tp items hgs hitems hdl,
   fun F g n dirs names tp items hF hw hne =>
     Objective.evaluate_single_mat F g n dirs names tp items hF hw hne,
   fun g B n dirs names tp items hB hne hw =>
     BatchObjective.evaluate_batched_mat g B n dirs names tp items hB hne hw⟩

/-- Witness for C2 (amended): directions `[minimize, maximize]` on the
candidates `[2, 3]` with the functions `x` and `x * x`; the fitness matrix
is the raw matrix with the second column negated. -/
theorem C2_amended_witness :
    ElementWiseObjective.evaluate
        (⟨[fun x => x, fun x => x * x].map (ewScalarFn (ε := Nat)), 2, [1, -1], ["a", "b"], none⟩ :
          ObjectiveCfg (Int → Except Nat EWRes)) [2, 3]
      = .ok [[2, -4], [3, -9]]
    ∧ AsyncElementWiseObjective.evaluate
        (⟨[fun x => x, fun x => x * x].map (asyncScalarFn (ε := Nat)), 2, [1, -1], ["a", "b"], none⟩ :
          ObjectiveCfg (AsyncItemFn Int Nat)) [2, 3]
      = .ok [[2, -4], [3, -9]]
    ∧ Objective.evaluate (⟨[okMatPair], 2, [1, -1], ["a", "b"], none⟩ :
          ObjectiveCfg (List Int → Except Nat NpRes)) [2, 3]
      = .ok [[2, -4], [3, -9]]
    ∧ BatchObjective.evaluate
        (⟨⟨[batchMatFn (ε := Nat) (fun p => [p, p * p])], 2, [1, -1], ["a", "b"], none⟩, 2⟩ :
          BatchObjectiveCfg Int Nat) [2, 3]
      = .ok [[2, -4], [3, -9]] :=
  ⟨C2_amended.1 [fun x => x, fun x => x * x] 2 [1, -1] ["a", "b"] none [2, 3]
      (List.cons_ne_nil _ _) (List.cons_ne_nil _ _) rfl,
   C2_amended.2.1 [fun x => x, fun x => x * x] 2 [1, -1] ["a", "b"] none [2, 3]
      (List.cons_ne_nil _ _) (List.cons_ne_nil _ _) rfl,
   C2_amended.2.2.1 okMatPair (fun p => [p, p * p]) 2 [1, -1] ["a", "b"] none [2, 3]
      rfl (by decide) (List.cons_ne_nil _ _),
   C2_amended.2.2.2 (fun p => [p, p * p]) 2 2 [1, -1] ["a", "b"] none [2, 3]
      (by decide) (List.cons_ne_nil _ _) (by decide)⟩

/-- C3 counterexample: the same logical identity objective expressed
vectorized (`okFlatId`, the whole population in, one flat value per
candidate out) and per-item (`ewScalarFn (fun x => x)`), evaluated on the
candidates `[5, 7]` with one minimize direction: the vectorized variant
yields `[[5, 7]]` (one row), the element-wise variant yields `[[5], [7]]`
(two rows) — the matrices are not identical. -/
theorem C3_counterexample :
    Objective.evaluate (⟨[okFlatId], 1, [1], ["objective_0"], none⟩ :
          ObjectiveCfg (List Int → Except Nat NpRes)) [5, 7]
      = .ok [[5, 7]]
    ∧ ElementWiseObjective.evaluate
        (⟨[ewScalarFn (ε := Nat) (fun x => x)], 1, [1], ["objective_0"], none⟩ :
          ObjectiveCfg (Int → Except Nat EWRes)) [5, 7]
      = .ok [[5], [7]]
    ∧ ([[5, 7]] : List (List Int)) ≠ [[5], [7]] :=
  ⟨rfl, rfl, by decide⟩

/-- C3 (amended): cross-variant consistency holds for a single
multi-column function: when the vectorized form returns a two-dimensional
result with one row `g x` per candidate and the per-item form returns the
vector `g x` for each candidate, the vectorized `Objective` variant and
`ElementWiseObjective` produce identical fitness matrices.  For flat
(scalar per candidate) functions the two variants differ: the element-wise
variant transposes its collected results and the vectorized variant does
not (see the counterexample). -/
theorem C3_amended {α ε : Type} (F : List α → Except ε NpRes) (g : α → List Int)
    (n : Nat) (dirs : List Int) (names : List String) (tp : Option Unit) (items : List α)
    (hF : F items = .ok (.mat (items.map g)))
    (hw : ∀ x ∈ items, (g x).length = dirs.length)
    (hne : items ≠ []) (hk : dirs ≠ []) :
    Objective.evaluate (⟨[F], n, dirs, names, tp⟩ :
        ObjectiveCfg (List α → Except ε NpRes)) items
      = ElementWiseObjective.evaluate (⟨[ewVecFn (ε := ε) g], n, dirs, names, tp⟩ :
          ObjectiveCfg (α → Except ε EWRes)) items
    ∧ Objective.evaluate (⟨[F], n, dirs, names, tp⟩ :
        ObjectiveCfg (List α → Except ε NpRes)) items
      = .ok (items.map (fun x => List.zipWith (fun v d => v * d) (g x) dirs)) := by
  have h1 := Objective.evaluate_single_mat F g n dirs names tp items hF hw hne
  have h2 := ElementWiseObjective.evaluate_single_vec (ε := ε) g n dirs names tp items hw hne hk
  exact ⟨h1.trans h2.symm, h1⟩

/-- Witness for C3 (amended): the two-column function `p ↦ [p, p * p]` in
vectorized and per-item form on the candidates `[2, 3]`. -/
theorem C3_amended_witness :
    Objective.evaluate (⟨[okMatPair], 2, [1, -1], ["a", "b"], none⟩ :
        ObjectiveCfg (List Int → Except Nat NpRes)) [2, 3]
      = ElementWiseObjective.evaluate
          (⟨[ewVecFn (ε := Nat) (fun p => [p, p * p])], 2, [1, -1], ["a", "b"], none⟩ :
            ObjectiveCfg (Int → Except Nat EWRes)) [2, 3]
    ∧ Objective.evaluate (⟨[okMatPair], 2, [1, -1], ["a", "b"], none⟩ :
        ObjectiveCfg (List Int → Except Nat NpRes)) [2, 3]
      = .ok ([2, 3].map (fun x => List.zipWith (fun v d => v * d) [x, x * x] [1, -1])) :=
  C3_amended okMatPair (fun p => [p, p * p]) 2 [1, -1] ["a", "b"] none [2, 3]
    rfl (by decide) (List.cons_ne_nil _ _) (List.cons_ne_nil _ _)

/-! ## Error propagation lemmas -/

namespace Objective

lemma collectResults_user_error {α ε : Type} (pre post : List (List α → Except ε NpRes))
    (fbad : List α → Except ε NpRes) (items : List α) (e : ε)
    (hpre : ∀ f ∈ pre, ∃ r, f items = .ok r) (hbad : fbad items = .error e) :
    collectResults (pre ++ fbad :: post) items = .error (.user e) := by
  induction pre with
  | nil => simp [collectResults, hbad]
  | cons f rest ih =>
    rcases hpre f (List.mem_cons_self f rest) with ⟨r, hr⟩
    have hrec := ih (fun f' hf' => hpre f' (List.mem_cons_of_mem f hf'))
    simp [collectResults, hr, hrec]

end Objective

namespace ElementWiseObjective

lemma collectAll_user_error {α ε : Type} (pre post : List (α → Except ε EWRes))
    (fbad : α → Except ε EWRes) (items : List α) (e : ε)
    (hpre : ∀ f ∈ pre, ∃ rs, collectItems f items = .ok rs)
    (hbad : collectItems fbad items = .error e) :
    collectAll (pre ++ fbad :: post) items = .error (.user e) := by
  induction pre with
  | nil => simp [collectAll, hbad]
  | cons f rest ih =>
    rcases hpre f (List.mem_cons_self f rest) with ⟨rs, hr⟩
    have hrec := ih (fun f' hf' => hpre f' (List.mem_cons_of_mem f hf'))
    simp [collectAll, hr, hrec]

end ElementWiseObjective

namespace BatchObjective

lemma runFns_batch_user_error {α ε : Type} (pre post : List (AsyncFn α ε)) (fbad : AsyncFn α ε)
    (batches : List (List α)) (b : List α) (brest : List (List α)) (e : ε)
    (hpre : ∀ f ∈ pre, f.isCoroutine = true
      ∧ ∃ out, async_evaluate f batches = .ok out ∧ ∃ r, npConcatenate out = some r)
    (hco : fbad.isCoroutine = true)
    (hbs : batches = b :: brest) (hrb : fbad.run b = .error e) :
    runFns (pre ++ fbad :: post) batches = .error (.user e) := by
  induction pre with
  | nil =>
    subst hbs
    simp [runFns, hco, async_evaluate, gather, hrb]
  | cons f rest ih =>
    rcases hpre f (List.mem_cons_self f rest) with ⟨hfco, out, hout, r, hr⟩
    have hrec := ih (fun f' hf' => hpre f' (List.mem_cons_of_mem f hf'))
    simp [runFns, hfco, hout, hr, hrec]

lemma runFns_batch_sync_error {α ε : Type} (pre post : List (AsyncFn α ε))
    (g : List α → Except ε NpRes) (batches : List (List α))
    (hpre : ∀ f ∈ pre, f.isCoroutine = true
      ∧ ∃ out, async_evaluate f batches = .ok out ∧ ∃ r, npConcatenate out = some r) :
    runFns (pre ++ (⟨false, g⟩ : AsyncFn α ε) :: post) batches
      = .error (.valueError "All objective functions must be asynchronous for BatchObjective.") := by
  induction pre with
  | nil => simp [runFns]
  | cons f rest ih =>
    rcases hpre f (List.mem_cons_self f rest) with ⟨hfco, out, hout, r, hr⟩
    have hrec := ih (fun f' hf' => hpre f' (List.mem_cons_of_mem f hf'))
    simp [runFns, hfco, hout, hr, hrec]

end BatchObjective

namespace AsyncElementWiseObjective

lemma runFns_item_user_error {α ε : Type} (pre post : List (AsyncItemFn α ε))
    (fbad : AsyncItemFn α ε) (x : α) (xs : List α) (e : ε)
    (hpre : ∀ f ∈ pre, f.isCoroutine = true
      ∧ ∃ out, gatherItems f.run (x :: xs) = .ok out ∧ ∃ r, ewCollect out = some r)
    (hco : fbad.isCoroutine = true) (hrx : fbad.run x = .error e) :
    runFns (pre ++ fbad :: post) (x :: xs) = .error (.user e) := by
  induction pre with
  | nil => simp [runFns, async_evaluate, hco, gatherItems, hrx]
  | cons f rest ih =>
    rcases hpre f (List.mem_cons_self f rest) with ⟨hfco, out, hout, r, hr⟩
    have hrec := ih (fun f' hf' => hpre f' (List.mem_cons_of_mem f hf'))
    simp [runFns, async_evaluate, hfco, hout, hr, hrec]

lemma runFns_item_sync_error {α ε : Type} (pre post : List (AsyncItemFn α ε))
    (g : α → Except ε EWRes) (items : List α)
    (hpre : ∀ f ∈ pre, f.isCoroutine = true
      ∧ ∃ out, gatherItems f.run items = .ok out ∧ ∃ r, ewCollect out = some r) :
    runFns (pre ++ (⟨false, g⟩ : AsyncItemFn α ε) :: post) items
      = .error (.valueError "Objective function must be asynchronous.") := by
  induction pre with
  | nil => simp [runFns, async_evaluate]
  | cons f rest ih =>
    rcases hpre f (List.mem_cons_self f rest) with ⟨hfco, out, hout, r, hr⟩
    have hrec := ih (fun f' hf' => hpre f' (List.mem_cons_of_mem f hf'))
    simp [runFns, async_evaluate, hfco, hout, hr, hrec]

end AsyncElementWiseObjective

/-- C5: For every variant, if a user-supplied objective function raises an
exception during `evaluate` (while every earlier function's work
succeeded), the exception propagates to the caller unmodified — the result
is `.error (.user e)` with the exact user payload `e`, never caught,
wrapped or retried — and no fitness matrix is produced.  For the two
concurrent variants the failing function's task group (`asyncio.gather`)
is all-or-nothing: the joint wait fails with the task's exception and no
partial results of that group are retained in the output. -/
theorem C5_exception_propagation :
    (∀ {α ε : Type} (pre post : List (List α → Except ε NpRes))
       (fbad : List α → Except ε NpRes) (n : Nat) (dirs : List Int) (names : List String)
       (tp : Option Unit) (items : List α) (e : ε),
       (∀ f ∈ pre, ∃ r, f items = .ok r) → fbad items = .error e →
       Objective.evaluate (⟨pre ++ fbad :: post, n, dirs, names, tp⟩ :
           ObjectiveCfg (List α → Except ε NpRes)) items = .error (.user e))
    ∧ (∀ {α ε : Type} (pre post : List (α → Except ε EWRes)) (fbad : α → Except ε EWRes)
       (n : Nat) (dirs : List Int) (names : List String) (tp : Option Unit)
       (x : α) (xs : List α) (e : ε),
       (∀ f ∈ pre, ∃ rs, ElementWiseObjective.collectItems f (x :: xs) = .ok rs) →
       fbad x = .error e →
       ElementWiseObjective.evaluate (⟨pre ++ fbad :: post, n, dirs, names, tp⟩ :
           ObjectiveCfg (α → Except ε EWRes)) (x :: xs) = .error (.user e))
    ∧ (∀ {α ε : Type} (pre post : List (AsyncFn α ε)) (fbad : AsyncFn α ε)
       (n : Nat) (dirs : List Int) (names : List String) (tp : Option Unit)
       (B : Nat) (items : List α) (b : List α) (brest : List (List α)) (e : ε),
       0 < B →
       (∀ f ∈ pre, f.isCoroutine = true
         ∧ ∃ out, BatchObjective.async_evaluate f (BatchObjective.makeBatches items B) = .ok out
             ∧ ∃ r, npConcatenate out = some r) →
       fbad.isCoroutine = true →
       BatchObjective.makeBatches items B = b :: brest → fbad.run b = .error e →
       BatchObjective.evaluate (⟨⟨pre ++ fbad :: post, n, dirs, names, tp⟩, B⟩ :
           BatchObjectiveCfg α ε) items = .error (.user e))
    ∧ (∀ {α ε : Type} (pre post : List (AsyncItemFn α ε)) (fbad : AsyncItemFn α ε)
       (n : Nat) (dirs : List Int) (names : List String) (tp : Option Unit)
       (x : α) (xs : List α) (e : ε),
       (∀ f ∈ pre, f.isCoroutine = true
         ∧ ∃ out, AsyncElementWiseObjective.gatherItems f.run (x :: xs) = .ok out
             ∧ ∃ r, ewCollect out = some r) →
       fbad.isCoroutine = true → fbad.run x = .error e →
       AsyncElementWiseObjective.evaluate (⟨pre ++ fbad :: post, n, dirs, names, tp⟩ :
           ObjectiveCfg (AsyncItemFn α ε)) (x :: xs) = .error (.user e)) := by
  refine ⟨?_, ?_, ?_, ?_⟩
  · intro α ε pre post fbad n dirs names tp items e hpre hbad
    have hc := Objective.collectResults_user_error pre post fbad items e hpre hbad
    simp only [Objective.evaluate, hc]
  · intro α ε pre post fbad n dirs names tp x xs e hpre hfx
    have hbad : ElementWiseObjective.collectItems fbad (x :: xs) = .error e := by
      simp [ElementWiseObjective.collectItems, hfx]
    have hc := ElementWiseObjective.collectAll_user_error pre post fbad (x :: xs) e hpre hbad
    simp only [ElementWiseObjective.evaluate, hc]
  · intro α ε pre post fbad n dirs names tp B items b brest e hB hpre hco hbs hrb
    have hBne : ¬(B = 0) := by omega
    have hc := BatchObjective.runFns_batch_user_error pre post fbad
      (BatchObjective.makeBatches items B) b brest e hpre hco hbs hrb
    simp only [BatchObjective.evaluate, hBne, ite_false, hc]
  · intro α ε pre post fbad n dirs names tp x xs e hpre hco hrx
    have hc := AsyncElementWiseObjective.runFns_item_user_error pre post fbad x xs e hpre hco hrx
    simp only [AsyncElementWiseObjective.evaluate, hc]

/-- Witness for C5: the user exception `7` raised by the single objective
function of each variant propagates unmodified. -/
theorem C5_exception_propagation_witness :
    Objective.evaluate (⟨[errVec], 1, [1], ["objective_0"], none⟩ :
        ObjectiveCfg (List Int → Except Nat NpRes)) [1, 2] = .error (.user 7)
    ∧ ElementWiseObjective.evaluate (⟨[errItem], 1, [1], ["objective_0"], none⟩ :
        ObjectiveCfg (Int → Except Nat EWRes)) [1, 2] = .error (.user 7)
    ∧ BatchObjective.evaluate (⟨⟨[asyncErr], 1, [1], ["objective_0"], none⟩, 2⟩ :
        BatchObjectiveCfg Int Nat) [1, 2, 3] = .error (.user 7)
    ∧ AsyncElementWiseObjective.evaluate (⟨[asyncItemErr], 1, [1], ["objective_0"], none⟩ :
        ObjectiveCfg (AsyncItemFn Int Nat)) [1, 2] = .error (.user 7) :=
  ⟨C5_exception_propagation.1 [] [] errVec 1 [1] ["objective_0"] none [1, 2] 7
      (fun f hf => absurd hf (List.not_mem_nil f)) rfl,
   C5_exception_propagation.2.1 [] [] errItem 1 [1] ["objective_0"] none 1 [2] 7
      (fun f hf => absurd hf (List.not_mem_nil f)) rfl,
   C5_exception_propagation.2.2.1 [] [] asyncErr 1 [1] ["objective_0"] none 2 [1, 2, 3]
      [1, 2] [[3]] 7 (by decide) (fun f hf => absurd hf (List.not_mem_nil f)) rfl rfl rfl,
   C5_exception_propagation.2.2.2 [] [] asyncItemErr 1 [1] ["objective_0"] none 1 [2] 7
      (fun f hf => absurd hf (List.not_mem_nil f)) rfl rfl⟩

/-- C6: For every `BatchObjective` or `AsyncElementWiseObjective` whose
function list contains a synchronous (non-coroutine) function — here
written `⟨false, g⟩` with the body `g` universally quantified, so the
result provably does not depend on the body: none of that function's work
is started — and whose earlier functions all complete their groups,
`evaluate` raises the calling-convention `ValueError` before dispatching
any of that function's tasks. -/
theorem C6_sync_function_rejected :
    (∀ {α ε : Type} (pre post : List (AsyncFn α ε)) (g : List α → Except ε NpRes)
       (n : Nat) (dirs : List Int) (names : List String) (tp : Option Unit)
       (B : Nat) (items : List α),
       0 < B →
       (∀ f ∈ pre, f.isCoroutine = true
         ∧ ∃ out, BatchObjective.async_evaluate f (BatchObjective.makeBatches items B) = .ok out
             ∧ ∃ r, npConcatenate out = some r) →
       BatchObjective.evaluate (⟨⟨pre ++ (⟨false, g⟩ : AsyncFn α ε) :: post, n, dirs, names, tp⟩, B⟩ :
           BatchObjectiveCfg α ε) items
         = .error (.valueError "All objective functions must be asynchronous for BatchObjective."))
    ∧ (∀ {α ε : Type} (pre post : List (AsyncItemFn α ε)) (g : α → Except ε EWRes)
       (n : Nat) (dirs : List Int) (names : List String) (tp : Option Unit) (items : List α),
       (∀ f ∈ pre, f.isCoroutine = true
         ∧ ∃ out, AsyncElementWiseObjective.gatherItems f.run items = .ok out
             ∧ ∃ r, ewCollect out = some r) →
       AsyncElementWiseObjective.evaluate
           (⟨pre ++ (⟨false, g⟩ : AsyncItemFn α ε) :: post, n, dirs, names, tp⟩ :
             ObjectiveCfg (AsyncItemFn α ε)) items
         = .error (.valueError "Objective function must be asynchronous.")) := by
  constructor
  · intro α ε pre post g n dirs names tp B items hB hpre
    have hBne : ¬(B = 0) := by omega
    have hc := BatchObjective.runFns_batch_sync_error pre post g
      (BatchObjective.makeBatches items B) hpre
    simp only [BatchObjective.evaluate, hBne, ite_false, hc]
  · intro α ε pre post g n dirs names tp items hpre
    have hc := AsyncElementWiseObjective.runFns_item_sync_error pre post g items hpre
    simp only [AsyncElementWiseObjective.evaluate, hc]

/-- Witness for C6: a synchronous function (`syncFlat` / `syncItem`) makes
both asynchronous variants raise the calling-convention `ValueError`. -/
theorem C6_sync_function_rejected_witness :
    BatchObjective.evaluate (⟨⟨[syncFlat], 1, [1], ["objective_0"], none⟩, 2⟩ :
        BatchObjectiveCfg Int Nat) [1, 2]
      = .error (.valueError "All objective functions must be asynchronous for BatchObjective.")
    ∧ AsyncElementWiseObjective.evaluate (⟨[syncItem], 1, [1], ["objective_0"], none⟩ :
        ObjectiveCfg (AsyncItemFn Int Nat)) [1, 2]
      = .error (.valueError "Objective function must be asynchronous.") :=
  ⟨C6_sync_function_rejected.1 [] [] (fun b => .ok (.flat b)) 1 [1] ["objective_0"] none 2 [1, 2]
      (by decide) (fun f hf => absurd hf (List.not_mem_nil f)),
   C6_sync_function_rejected.2 [] [] (fun x => .ok (.scalar x)) 1 [1] ["objective_0"] none [1, 2]
      (fun f hf => absurd hf (List.not_mem_nil f))⟩

/-- C10: For every construction call in which `directions` is omitted, every
objective defaults to minimize: the stored directions are all `+1`; the
sign-application step of `evaluate` (`npMul`, the only place directions are
used) leaves every fitness matrix unchanged; and an element-wise `evaluate`
under such a configuration returns exactly the raw per-function values with
no sign change in any column. -/
theorem C10_default_directions :
    (∀ {F : Type} (fns : List F) (num : Option Nat) (ns? : Option (List String))
       (tp : Option Unit) (cfg : ObjectiveCfg F),
       Objective.init fns num none ns? tp = .ok cfg →
       cfg.directions = List.replicate cfg.num_objectives 1
       ∧ (∀ d ∈ cfg.directions, d = 1)
       ∧ ∀ rows : List (List Int), commonWidth rows = some cfg.num_objectives →
           npMul rows cfg.directions = some rows)
    ∧ (∀ {α ε : Type} (gs : List (α → Int)) (ns? : Option (List String)) (tp : Option Unit)
       (cfg : ObjectiveCfg (α → Except ε EWRes)),
       Objective.init (gs.map (ewScalarFn (ε := ε))) none none ns? tp = .ok cfg →
       gs ≠ [] → ∀ items : List α, items ≠ [] →
       ElementWiseObjective.evaluate cfg items
         = .ok (items.map (fun x => gs.map (fun g => g x)))) := by
  constructor
  · intro F fns num ns? tp cfg h
    have hd := (Objective.init_ok h).2.2.2.2.1 rfl
    refine ⟨hd, ?_, ?_⟩
    · intro d hdm
      rw [hd] at hdm
      exact List.eq_of_mem_replicate hdm
    · intro rows hw
      rw [hd]
      exact npMul_replicate_one hw
  · intro α ε gs ns? tp cfg h hgs items hitems
    obtain ⟨h1, h2, -, -, h5, -, h7⟩ := Objective.init_ok h
    have hd := h5 rfl
    rcases cfg with ⟨fns', n', dirs', names', tp'⟩
    simp only at h1 h2 hd h7
    subst h1
    subst h2
    subst hd
    rw [ElementWiseObjective.evaluate_scalars gs _ _ names' tp' items hgs hitems (by simp)]
    congr 1
    apply List.map_congr_left
    intro x _
    have hrw : List.replicate (Option.getD none (gs.map (ewScalarFn (ε := ε))).length) (1 : Int)
        = List.replicate (gs.map (fun g => g x)).length 1 := by
      simp
    rw [hrw]
    exact zipWith_mul_replicate_one _

/-- Witness for C10 at a concrete configuration, matrix and population. -/
theorem C10_default_directions_witness :
    ((⟨[0], 1, [1], ["objective_0"], none⟩ : ObjectiveCfg Nat).directions
        = List.replicate (⟨[0], 1, [1], ["objective_0"], none⟩ : ObjectiveCfg Nat).num_objectives 1
     ∧ (∀ d ∈ (⟨[0], 1, [1], ["objective_0"], none⟩ : ObjectiveCfg Nat).directions, d = 1)
     ∧ npMul [[5], [7]] (⟨[0], 1, [1], ["objective_0"], none⟩ : ObjectiveCfg Nat).directions
        = some [[5], [7]])
    ∧ ElementWiseObjective.evaluate
        (⟨[ewScalarFn (ε := Nat) (fun x => x)], 1, [1], ["objective_0"], none⟩ :
          ObjectiveCfg (Int → Except Nat EWRes)) [5, 7]
      = .ok [[5], [7]] :=
  ⟨⟨((C10_default_directions.1) [0] none none none _ rfl).1,
    ((C10_default_directions.1) [0] none none none _ rfl).2.1,
    ((C10_default_directions.1) [0] none none none _ rfl).2.2 [[5], [7]] rfl⟩,
   (C10_default_directions.2) [fun x => x] none none
      ⟨[ewScalarFn (ε := Nat) (fun x => x)], 1, [1], ["objective_0"], none⟩ rfl
      (List.cons_ne_nil _ _) [5, 7] (List.cons_ne_nil _ _)⟩
